import Mathlib

/-!
# SakuraCloud DNS provider

A shallow embedding of `provider/sakuracloud/sakuracloud.go` and a verification of
its name translation, record translation and reconciliation (`ApplyChanges`).

Conventions of the embedding:

* Go strings are Lean strings; the functions of Go's `strings` package that the
  provider calls are defined on the character lists.
* Pointers are values. A zone obtained from the listing call is a value of `DNS`;
  the in-place mutation `z.Records.Add(r)` is a functional update of that value.
  The zones returned by one listing call are distinct objects, and no endpoint or
  zone pointer is nil.
* `int`, `int64`, `endpoint.TTL` and `types.ID` are integers (`int` is 64 bits wide
  on the supported platforms, so the conversions between them are the identity).
* The provider's two remote calls (`dnsOp.Find`, `dnsOp.Update`) are recorded in a
  trace of `Call`s; their outcomes are given by a `Client`.
* `log.Debugf` has no effect on control flow and is omitted.
-/

/-! ## Go's `strings` package -/

namespace strings

/-- The call `strings.HasPrefix(s, pre)`. -/
def HasPrefix (s pre : String) : Bool :=
  pre.data.isPrefixOf s.data

/-- The call `strings.HasSuffix(s, suffix)`. -/
def HasSuffix (s suffix : String) : Bool :=
  suffix.data.isSuffixOf s.data

/-- The call `strings.TrimPrefix(s, pre)`: `s` without the leading `pre`, or `s`
itself when it does not start with `pre`. -/
def TrimPrefix (s pre : String) : String :=
  if HasPrefix s pre then ⟨s.data.drop pre.data.length⟩ else s

/-- The call `strings.TrimSuffix(s, suffix)`: `s` without the trailing `suffix`,
or `s` itself when it does not end with `suffix`. -/
def TrimSuffix (s suffix : String) : String :=
  if HasSuffix s suffix then ⟨s.data.take (s.data.length - suffix.data.length)⟩ else s

/-- The call `strings.Contains(s, substr)`: `substr` occurs somewhere within `s`. -/
def Contains (s substr : String) : Bool :=
  s.data.tails.any (fun t => substr.data.isPrefixOf t)

end strings

namespace sakuracloud

/-! ## Data model -/

/-- Go's `error`, identified by its message. -/
abbrev Error := String

/-- The type `types.ID` of a provider resource (an `int64`, opaque to this code). -/
abbrev ID := Int

/-- The type `endpoint.TTL` (an `int64`). -/
abbrev TTL := Int

/-- The constant `sakuraCloudRecordTTL`. -/
def sakuraCloudRecordTTL : Int := 300

/-- Modelled from the spec: `iaas.DNSRecord`, a provider-native resource record
(type, name relative to the zone, value, TTL). `types.EDNSRecordType` is a string;
the field `Type` is written `Type_`. -/
structure DNSRecord where
  Name : String
  Type_ : String
  RData : String
  TTL : Int
deriving DecidableEq

/-- Modelled from the spec: `iaas.NewDNSRecord(t, name, rdata, ttl)`, the record with
exactly these four fields. -/
def NewDNSRecord (t : String) (name : String) (rdata : String) (ttl : Int) : DNSRecord :=
  { Name := name, Type_ := t, RData := rdata, TTL := ttl }

/-- Modelled from the spec: `iaas.DNSRecords`, the ordered record collection of a zone. -/
abbrev DNSRecords := List DNSRecord

/-- Modelled from the spec: the identity of a record is its type, name and value;
the TTL is not part of it. -/
def sameIdentity (a b : DNSRecord) : Bool :=
  decide (a.Name = b.Name) && decide (a.Type_ = b.Type_) && decide (a.RData = b.RData)

/-- Modelled from the spec: `(*iaas.DNSRecords).Add(r)`. Insertion is idempotent by
identity: a record is appended unless the collection already holds a record of the
same type, name and value. -/
def DNSRecords.Add (o : DNSRecords) (r : DNSRecord) : DNSRecords :=
  if o.any (fun x => sameIdentity x r) then o else o ++ [r]

/-- Modelled from the spec: `(*iaas.DNSRecords).Delete(r)`. Removal is keyed by
identity: every record of the same type, name and value is removed, whatever its TTL. -/
def DNSRecords.Delete (o : DNSRecords) (r : DNSRecord) : DNSRecords :=
  o.filter (fun x => !sameIdentity x r)

/-- Modelled from the spec: `iaas.DNS`, a provider-managed zone. `Name` is used by
`Records` and `ApplyChanges`, `DNSZone` by the domain filter in `Zones`. -/
structure DNS where
  ID : ID
  Name : String
  DNSZone : String
  Records : DNSRecords
deriving DecidableEq

/-- Modelled from the spec: `endpoint.Endpoint`, the provider-agnostic record
descriptor (DNS name, targets, record type, TTL). -/
structure Endpoint where
  DNSName : String
  Targets : List String
  RecordType : String
  RecordTTL : TTL
deriving DecidableEq

/-- Modelled from the spec: `endpoint.NewEndpointWithTTL(dnsName, recordType, ttl,
targets...)`, the endpoint with exactly these fields. -/
def NewEndpointWithTTL (dnsName : String) (recordType : String) (ttl : TTL)
    (targets : List String) : Endpoint :=
  { DNSName := dnsName, Targets := targets, RecordType := recordType, RecordTTL := ttl }

/-- Modelled from the spec: `plan.Changes`, the four lists of endpoints of one cycle. -/
structure Changes where
  Create : List Endpoint
  UpdateOld : List Endpoint
  UpdateNew : List Endpoint
  Delete : List Endpoint
deriving DecidableEq

/-- Modelled from the spec: `endpoint.DomainFilter`, a predicate over zone names. -/
structure DomainFilter where
  Match : String → Bool

/-- A remote call issued to the provider: `dnsOp.Find(ctx, &iaas.FindCondition{})` or
`dnsOp.Update(ctx, id, &iaas.DNSUpdateRequest{Records: records})`. -/
inductive Call where
  | Find : Call
  | Update (id : ID) (records : DNSRecords) : Call
deriving DecidableEq

/-- The behaviour of the remote provider behind `*iaas.Client`: the outcome of the
listing call, and the outcome of an update call (`none` is success) as a function of
the calls issued before it and of its arguments. -/
structure Client where
  Find : Except Error (List DNS)
  Update : List Call → ID → DNSRecords → Option Error

/-- The struct `SakuraCloudProvider`. -/
structure SakuraCloudProvider where
  Client : sakuracloud.Client
  domainFilter : DomainFilter
  DryRun : Bool

/-! ## Operations -/

/-- The function `NewSakuraCloudProvider`. `LookupEnv` is the process environment
(`os.LookupEnv`), `NewClient` is `iaas.NewClient`. -/
def NewSakuraCloudProvider (LookupEnv : String → Option String)
    (NewClient : String → String → Client) (domainFilter : DomainFilter) (dryRun : Bool) :
    Except Error SakuraCloudProvider :=
  match LookupEnv "SAKURACLOUD_ACCESS_TOKEN" with
  | none => .error "No token found"
  | some token =>
    match LookupEnv "SAKURACLOUD_ACCESS_TOKEN_SECRET" with
    | none => .error "No secret found"
    | some secret =>
      .ok { Client := NewClient token secret, domainFilter := domainFilter, DryRun := dryRun }

/-- The method `Zones`: the calls it issues and what it returns. -/
def Zones (p : SakuraCloudProvider) : List Call × Except Error (List DNS) :=
  match p.Client.Find with
  | .error err => ([Call.Find], .error err)
  | .ok res =>
    ([Call.Find], .ok (res.foldl
      (fun zones zone => if p.domainFilter.Match zone.DNSZone then zones ++ [zone] else zones)
      []))

/-- The method `Records`: the calls it issues and what it returns.
`SupportedRecordType` is `provider.SupportedRecordType`. -/
def Records (SupportedRecordType : String → Bool) (p : SakuraCloudProvider) :
    List Call × Except Error (List Endpoint) :=
  match Zones p with
  | (calls, .error err) => (calls, .error err)
  | (calls, .ok zones) =>
    (calls, .ok (zones.foldl
      (fun endpoints z =>
        z.Records.foldl
          (fun endpoints r =>
            if SupportedRecordType r.Type_ then
              let name := r.Name ++ "." ++ z.Name
              let name := if r.Name = "@" then z.Name else name
              endpoints ++ [NewEndpointWithTTL name r.Type_ r.TTL [r.RData]]
            else endpoints)
          endpoints)
      []))

/-- The method `getStrippedRecordName` (the receiver is not used). -/
def getStrippedRecordName (zone : DNS) (ep : Endpoint) : String :=
  if ep.DNSName = zone.Name then "@"
  else strings.TrimSuffix ep.DNSName ("." ++ zone.Name)

/-- The method `endpointToRecord` (the receiver is not used). `IsConfigured` is
`endpoint.TTL.IsConfigured`. -/
def endpointToRecord (IsConfigured : TTL → Bool) (zone : DNS) (ep : Endpoint) :
    List DNSRecord :=
  let ttl := if IsConfigured ep.RecordTTL then ep.RecordTTL else sakuraCloudRecordTTL
  ep.Targets.foldl
    (fun records rdata =>
      let rdata := strings.TrimPrefix rdata "\""
      let rdata := strings.TrimSuffix rdata "\""
      records ++ [NewDNSRecord ep.RecordType (getStrippedRecordName zone ep) rdata ttl])
    []

/-- One of the four loops of `ApplyChanges` over `zones` and one list of the change
set: every endpoint whose DNS name contains the zone name is translated for that
zone and each resulting record is passed to `op` (`Add` or `Delete`) on the zone's
collection. -/
def changePass (IsConfigured : TTL → Bool) (op : DNSRecords → DNSRecord → DNSRecords)
    (eps : List Endpoint) (zones : List DNS) : List DNS :=
  zones.map fun z =>
    eps.foldl
      (fun z ep =>
        if !strings.Contains ep.DNSName z.Name then z
        else
          (endpointToRecord IsConfigured z ep).foldl
            (fun z r => { z with Records := op z.Records r }) z)
      z

/-- The commit loop of `ApplyChanges`: one `Update` call per zone, in order, stopping
at the first failure. Returns the error (if any) and the trace of calls. -/
def commit (update : List Call → ID → DNSRecords → Option Error) :
    List DNS → List Call → Option Error × List Call
  | [], calls => (none, calls)
  | z :: zs, calls =>
    match update calls z.ID z.Records with
    | some err => (some err, calls ++ [Call.Update z.ID z.Records])
    | none => commit update zs (calls ++ [Call.Update z.ID z.Records])

/-- What one call of `ApplyChanges` does: the error it returns (`none` is `nil`), the
remote calls it issues, in order, and the zone objects it obtained from `Zones` with
their in-memory record collections as they are when it returns. -/
structure ApplyResult where
  err : Option Error
  calls : List Call
  zones : List DNS
deriving DecidableEq

/-- The method `ApplyChanges`. `changes = none` is the nil change set. -/
def ApplyChanges (IsConfigured : TTL → Bool) (p : SakuraCloudProvider)
    (changes : Option Changes) : ApplyResult :=
  match changes with
  | none => { err := none, calls := [], zones := [] }
  | some changes =>
    if changes.Create.length + changes.Delete.length + changes.UpdateNew.length = 0 then
      { err := none, calls := [], zones := [] }
    else
      match Zones p with
      | (calls, .error err) => { err := some err, calls := calls, zones := [] }
      | (calls, .ok zones) =>
        let zones := changePass IsConfigured DNSRecords.Add changes.Create zones
        let zones := changePass IsConfigured DNSRecords.Add changes.UpdateNew zones
        let zones := changePass IsConfigured DNSRecords.Delete changes.Delete zones
        let zones := changePass IsConfigured DNSRecords.Delete changes.UpdateOld zones
        if p.DryRun then { err := none, calls := calls, zones := zones }
        else
          let (err, calls) := commit p.Client.Update zones calls
          { err := err, calls := calls, zones := zones }

/-! ## Concrete inputs used by the examples -/

/-- A supported-record-type predicate (`provider.SupportedRecordType`). -/
def supportedTypes (t : String) : Bool :=
  t = "A" || t = "AAAA" || t = "CNAME" || t = "SRV" || t = "TXT" || t = "NS"

/-- A TTL is configured when it is positive (`endpoint.TTL.IsConfigured`). -/
def ttlConfigured (ttl : TTL) : Bool := decide (0 < ttl)

/-- A provider whose listing returns `zones`, whose updates all succeed and whose
domain filter accepts every zone. -/
def providerOf (zones : List DNS) (dryRun : Bool) : SakuraCloudProvider :=
  { Client := { Find := .ok zones, Update := fun _ _ _ => none },
    domainFilter := { Match := fun _ => true },
    DryRun := dryRun }

/-- The zone `example.com` (ID 1) holding the record `www A 1.1.1.1` with TTL 300. -/
def exampleZone : DNS :=
  { ID := 1, Name := "example.com", DNSZone := "example.com",
    Records := [{ Name := "www", Type_ := "A", RData := "1.1.1.1", TTL := 300 }] }


/-- The endpoint `api.example.com A 2.2.2.2` with the given TTL. -/
def apiEndpoint (ttl : TTL) : Endpoint :=
  { DNSName := "api.example.com", Targets := ["2.2.2.2"], RecordType := "A", RecordTTL := ttl }

/-- The record `api A 2.2.2.2` with the given TTL. -/
def apiRecord (ttl : Int) : DNSRecord :=
  { Name := "api", Type_ := "A", RData := "2.2.2.2", TTL := ttl }

/-- The endpoint `www.example.com A 1.1.1.1` with the given TTL. -/
def wwwEndpoint (ttl : TTL) : Endpoint :=
  { DNSName := "www.example.com", Targets := ["1.1.1.1"], RecordType := "A", RecordTTL := ttl }

/-- The record `www A 1.1.1.1` with the given TTL. -/
def wwwRecord (ttl : Int) : DNSRecord :=
  { Name := "www", Type_ := "A", RData := "1.1.1.1", TTL := ttl }

/-- A TXT endpoint whose single target is `x` wrapped in two pairs of double-quotes. -/
def quotedEndpoint : Endpoint :=
  { DNSName := "txt.example.com", Targets := ["\"\"x\"\""], RecordType := "TXT",
    RecordTTL := 0 }

/-- The record `quotedEndpoint` is translated to: one pair of quotes is left. -/
def quotedRecord : DNSRecord :=
  { Name := "txt", Type_ := "TXT", RData := "\"x\"", TTL := 300 }

/-- The zone `example.com` (ID 1) holding the record `api A 2.2.2.2` with TTL 600. -/
def staleZone : DNS :=
  { ID := 1, Name := "example.com", DNSZone := "example.com", Records := [apiRecord 600] }

/-- The change set that creates `api.example.com A 2.2.2.2` with no configured TTL. -/
def createApi : Changes :=
  { Create := [apiEndpoint 0], UpdateOld := [], UpdateNew := [], Delete := [] }

/-- The change set that deletes `www.example.com A 1.1.1.1`. -/
def deleteWww : Changes :=
  { Create := [], UpdateOld := [], UpdateNew := [], Delete := [wwwEndpoint 0] }

/-- The change set that lists `www.example.com A 1.1.1.1` both as the new and as the
old state of an update. -/
def sameUpdate : Changes :=
  { Create := [], UpdateOld := [wwwEndpoint 0], UpdateNew := [wwwEndpoint 0], Delete := [] }

/-- The change set with `www.example.com A 1.1.1.1` in `UpdateOld` and nothing else. -/
def onlyUpdateOld : Changes :=
  { Create := [], UpdateOld := [wwwEndpoint 0], UpdateNew := [], Delete := [] }

/-- The zone `ple.com` (ID 2) holding no record. -/
def pleZone : DNS :=
  { ID := 2, Name := "ple.com", DNSZone := "ple.com", Records := [] }

/-- The zone `example.org` (ID 3) holding no record. -/
def orgZone : DNS :=
  { ID := 3, Name := "example.org", DNSZone := "example.org", Records := [] }

/-- The endpoint `example.com A 1.2.3.4` with no configured TTL. -/
def apexEndpoint : Endpoint :=
  { DNSName := "example.com", Targets := ["1.2.3.4"], RecordType := "A", RecordTTL := 0 }

/-- The change set that creates `example.com A 1.2.3.4`. -/
def createApex : Changes :=
  { Create := [apexEndpoint], UpdateOld := [], UpdateNew := [], Delete := [] }

/-- A provider like `providerOf zones false`, except that every update call for the
zone ID `failID` fails with the error `e`. -/
def failingProvider (zones : List DNS) (failID : ID) (e : Error) : SakuraCloudProvider :=
  { Client := { Find := .ok zones, Update := fun _ id _ => if id = failID then some e else none },
    domainFilter := { Match := fun _ => true },
    DryRun := false }

/-- A provider whose listing call fails with the error `e`. -/
def unavailableProvider (e : Error) : SakuraCloudProvider :=
  { Client := { Find := .error e, Update := fun _ _ _ => none },
    domainFilter := { Match := fun _ => true },
    DryRun := false }

/-- A provider listing `zones` whose domain filter accepts the zone name `example.com`
only. -/
def filteredProvider (zones : List DNS) : SakuraCloudProvider :=
  { Client := { Find := .ok zones, Update := fun _ _ _ => none },
    domainFilter := { Match := fun name => name = "example.com" },
    DryRun := false }

/-- A process environment holding at most the two credentials. -/
def envOf (token secret : Option String) : String → Option String :=
  fun key =>
    if key = "SAKURACLOUD_ACCESS_TOKEN" then token
    else if key = "SAKURACLOUD_ACCESS_TOKEN_SECRET" then secret
    else none

/-- A client constructor (`iaas.NewClient`) for the examples: the provider behind it
lists no zone. -/
def clientOf (_token _secret : String) : Client :=
  { Find := .ok [], Update := fun _ _ _ => none }

/-- The zone `example.com` (ID 1) holding the TXT record `txt` whose stored value is
`x` wrapped in double-quotes. -/
def txtZone : DNS :=
  { ID := 1, Name := "example.com", DNSZone := "example.com",
    Records := [{ Name := "txt", Type_ := "TXT", RData := "\"x\"", TTL := 300 }] }

/-- The endpoint that `Records` returns for the record of `txtZone`. -/
def txtEndpoint : Endpoint :=
  { DNSName := "txt.example.com", Targets := ["\"x\""], RecordType := "TXT", RecordTTL := 300 }

/-- The zone `example.com` (ID 1) holding a `www` record, an apex record and a record
of the type `MX`, which `supportedTypes` does not accept. -/
def mixedZone : DNS :=
  { ID := 1, Name := "example.com", DNSZone := "example.com",
    Records := [{ Name := "www", Type_ := "A", RData := "1.1.1.1", TTL := 300 },
                { Name := "mail", Type_ := "MX", RData := "10 mx.example.com.", TTL := 300 },
                { Name := "@", Type_ := "TXT", RData := "hello", TTL := 0 }] }

/-! ## Functional descriptions of the loops -/

/-- The endpoint that the body of the inner loop of `Records` appends for record `r`
of zone `z`. -/
def recordEndpoint (z : DNS) (r : DNSRecord) : Endpoint :=
  NewEndpointWithTTL (if r.Name = "@" then z.Name else r.Name ++ "." ++ z.Name)
    r.Type_ r.TTL [r.RData]

/-- The record that the body of the loop of `endpointToRecord` appends for one target. -/
def targetRecord (IsConfigured : TTL → Bool) (zone : DNS) (ep : Endpoint) (target : String) :
    DNSRecord :=
  NewDNSRecord ep.RecordType (getStrippedRecordName zone ep)
    (strings.TrimSuffix (strings.TrimPrefix target "\"") "\"")
    (if IsConfigured ep.RecordTTL then ep.RecordTTL else sakuraCloudRecordTTL)

/-- The records that one loop of `ApplyChanges` translates for zone `z` from the list
`eps`, in the order in which it passes them to `Add` or `Delete`. -/
def zoneRecords (IsConfigured : TTL → Bool) (z : DNS) (eps : List Endpoint) : List DNSRecord :=
  (eps.filter fun ep => strings.Contains ep.DNSName z.Name).flatMap
    (endpointToRecord IsConfigured z)

/-- The record collection of zone `z` after the four loops of `ApplyChanges`. -/
def reconciledRecords (IsConfigured : TTL → Bool) (changes : Changes) (z : DNS) : DNSRecords :=
  (zoneRecords IsConfigured z changes.UpdateOld).foldl DNSRecords.Delete
    ((zoneRecords IsConfigured z changes.Delete).foldl DNSRecords.Delete
      ((zoneRecords IsConfigured z changes.UpdateNew).foldl DNSRecords.Add
        ((zoneRecords IsConfigured z changes.Create).foldl DNSRecords.Add z.Records)))

/-- The zone `z` after the four loops of `ApplyChanges`. -/
def reconciledZone (IsConfigured : TTL → Bool) (changes : Changes) (z : DNS) : DNS :=
  { z with Records := reconciledRecords IsConfigured changes z }

/-- The update call that the commit loop issues for zone `z`. -/
def updateCall (z : DNS) : Call := Call.Update z.ID z.Records

/-! ## Lemmas on the string functions -/

theorem trimSuffix_append (n s : String) : strings.TrimSuffix (n ++ s) s = n := by
  have hs : strings.HasSuffix (n ++ s) s = true := by
    simp [strings.HasSuffix, String.data_append]
  apply String.ext
  simp [strings.TrimSuffix, hs, String.data_append]

theorem trimSuffix_of_not_hasSuffix (d s : String) (h : strings.HasSuffix d s = false) :
    strings.TrimSuffix d s = d := by
  simp [strings.TrimSuffix, h]

theorem trimPrefix_append (q s : String) : strings.TrimPrefix (q ++ s) q = s := by
  have hq : strings.HasPrefix (q ++ s) q = true := by
    simp [strings.HasPrefix, String.data_append]
  apply String.ext
  simp [strings.TrimPrefix, hq, String.data_append]

theorem trimPrefix_of_not_hasPrefix (d q : String) (h : strings.HasPrefix d q = false) :
    strings.TrimPrefix d q = d := by
  simp [strings.TrimPrefix, h]

theorem length_trimPrefix_quote (s : String) :
    s.length ≤ (strings.TrimPrefix s "\"").length + 1 := by
  unfold strings.TrimPrefix
  split
  · show s.data.length ≤ (s.data.drop 1).length + 1
    simp only [List.length_drop]
    omega
  · omega

theorem length_trimSuffix_quote (s : String) :
    s.length ≤ (strings.TrimSuffix s "\"").length + 1 := by
  unfold strings.TrimSuffix
  split
  · show s.data.length ≤ (s.data.take (s.data.length - 1)).length + 1
    simp only [List.length_take]
    omega
  · omega

theorem append_dot_ne (n z : String) : n ++ "." ++ z ≠ z := by
  intro h
  have hl := congrArg String.length h
  have hd : (".").length = 1 := by decide
  simp only [String.length_append, hd] at hl
  omega


/-! ## Lemmas on the loops of `Zones`, `Records` and `endpointToRecord` -/

theorem foldl_append_if {α β : Type} (c : α → Bool) (f : α → β) (l : List α) (init : List β) :
    l.foldl (fun acc x => if c x = true then acc ++ [f x] else acc) init
      = init ++ (l.filter c).map f := by
  induction l generalizing init with
  | nil => simp
  | cons x xs ih =>
    simp only [List.foldl_cons, ih]
    by_cases hx : c x = true
    · simp [hx, List.filter_cons]
    · simp [hx, List.filter_cons]

theorem foldl_append_map {α β : Type} (f : α → β) (l : List α) (init : List β) :
    l.foldl (fun acc x => acc ++ [f x]) init = init ++ l.map f := by
  induction l generalizing init with
  | nil => simp
  | cons x xs ih => simp [List.foldl_cons, ih]

theorem foldl_append_flatMap {α β : Type} (g : α → List β) (l : List α) (init : List β) :
    l.foldl (fun acc x => acc ++ g x) init = init ++ l.flatMap g := by
  induction l generalizing init with
  | nil => simp
  | cons x xs ih => simp [List.foldl_cons, ih, List.flatMap_cons]

theorem Zones_ok (p : SakuraCloudProvider) (L : List DNS) (hfind : p.Client.Find = .ok L) :
    Zones p = ([Call.Find], .ok (L.filter (fun z => p.domainFilter.Match z.DNSZone))) := by
  unfold Zones
  rw [hfind]
  simp only
  have h := foldl_append_if (fun z => p.domainFilter.Match z.DNSZone) id L []
  simp only [id, List.map_id_fun, List.nil_append] at h
  exact congrArg (fun zs => ([Call.Find], Except.ok zs)) h

theorem Zones_error (p : SakuraCloudProvider) (e : Error) (hfind : p.Client.Find = .error e) :
    Zones p = ([Call.Find], .error e) := by
  unfold Zones
  rw [hfind]

theorem Records_ok (SupportedRecordType : String → Bool) (p : SakuraCloudProvider)
    (L : List DNS) (hfind : p.Client.Find = .ok L) :
    Records SupportedRecordType p
      = ([Call.Find], .ok ((L.filter (fun z => p.domainFilter.Match z.DNSZone)).flatMap
          (fun z => (z.Records.filter (fun r => SupportedRecordType r.Type_)).map
            (recordEndpoint z)))) := by
  unfold Records
  rw [Zones_ok p L hfind]
  simp only
  have hin : ∀ (z : DNS) (init : List Endpoint),
      z.Records.foldl
          (fun endpoints r =>
            if SupportedRecordType r.Type_ = true then
              endpoints ++ [NewEndpointWithTTL
                (if r.Name = "@" then z.Name else r.Name ++ "." ++ z.Name) r.Type_ r.TTL [r.RData]]
            else endpoints) init
        = init ++ (z.Records.filter (fun r => SupportedRecordType r.Type_)).map
            (recordEndpoint z) := by
    intro z init
    exact foldl_append_if (fun r => SupportedRecordType r.Type_) (recordEndpoint z) z.Records init
  simp only [hin]
  rw [foldl_append_flatMap]
  simp

theorem endpointToRecord_eq_map (IsConfigured : TTL → Bool) (zone : DNS) (ep : Endpoint) :
    endpointToRecord IsConfigured zone ep = ep.Targets.map (targetRecord IsConfigured zone ep) := by
  unfold endpointToRecord
  simp only
  exact (foldl_append_map (targetRecord IsConfigured zone ep) ep.Targets []).trans
    (List.nil_append _)


theorem getStrippedRecordName_append (zone : DNS) (ep : Endpoint) (n : String)
    (h : ep.DNSName = n ++ "." ++ zone.Name) : getStrippedRecordName zone ep = n := by
  unfold getStrippedRecordName
  rw [h, if_neg (append_dot_ne n zone.Name), String.append_assoc]
  exact trimSuffix_append n ("." ++ zone.Name)

theorem getStrippedRecordName_apex (zone : DNS) (ep : Endpoint) (h : ep.DNSName = zone.Name) :
    getStrippedRecordName zone ep = "@" := by
  unfold getStrippedRecordName
  rw [if_pos h]

theorem mem_Records_of_mem (SupportedRecordType : String → Bool) (p : SakuraCloudProvider)
    (L : List DNS) (hfind : p.Client.Find = .ok L) :
    ∃ eps, (Records SupportedRecordType p).2 = .ok eps ∧
      ∀ z ∈ L, p.domainFilter.Match z.DNSZone = true →
        ∀ r ∈ z.Records, SupportedRecordType r.Type_ = true → recordEndpoint z r ∈ eps := by
  refine ⟨_, by rw [Records_ok SupportedRecordType p L hfind], ?_⟩
  intro z hz hm r hr hs
  rw [List.mem_flatMap]
  refine ⟨z, List.mem_filter.mpr ⟨hz, hm⟩, ?_⟩
  exact List.mem_map.mpr ⟨r, List.mem_filter.mpr ⟨hr, hs⟩, rfl⟩

/-! ## Lemmas on the loops of `ApplyChanges` -/

theorem foldl_setRecords (op : DNSRecords → DNSRecord → DNSRecords) (recs : List DNSRecord)
    (z : DNS) :
    recs.foldl (fun z r => { z with Records := op z.Records r }) z
      = { z with Records := recs.foldl op z.Records } := by
  induction recs generalizing z with
  | nil => rfl
  | cons r rs ih => simp only [List.foldl_cons, ih]

theorem getStrippedRecordName_congr (z₁ z₂ : DNS) (ep : Endpoint) (h : z₁.Name = z₂.Name) :
    getStrippedRecordName z₁ ep = getStrippedRecordName z₂ ep := by
  unfold getStrippedRecordName
  rw [h]

theorem endpointToRecord_congr (IsConfigured : TTL → Bool) (z₁ z₂ : DNS) (ep : Endpoint)
    (h : z₁.Name = z₂.Name) :
    endpointToRecord IsConfigured z₁ ep = endpointToRecord IsConfigured z₂ ep := by
  unfold endpointToRecord
  rw [getStrippedRecordName_congr z₁ z₂ ep h]

theorem zoneRecords_congr (IsConfigured : TTL → Bool) (z₁ z₂ : DNS) (eps : List Endpoint)
    (h : z₁.Name = z₂.Name) :
    zoneRecords IsConfigured z₁ eps = zoneRecords IsConfigured z₂ eps := by
  unfold zoneRecords
  rw [h]
  congr 1
  funext ep
  exact endpointToRecord_congr IsConfigured z₁ z₂ ep h

theorem zoneRecords_cons (IsConfigured : TTL → Bool) (z : DNS) (ep : Endpoint)
    (eps : List Endpoint) :
    zoneRecords IsConfigured z (ep :: eps)
      = (if strings.Contains ep.DNSName z.Name then endpointToRecord IsConfigured z ep else [])
          ++ zoneRecords IsConfigured z eps := by
  unfold zoneRecords
  by_cases h : strings.Contains ep.DNSName z.Name = true
  · simp [List.filter_cons, h, List.flatMap_cons]
  · simp [List.filter_cons, h]

theorem zoneLoop_eq (IsConfigured : TTL → Bool) (op : DNSRecords → DNSRecord → DNSRecords)
    (eps : List Endpoint) (z : DNS) :
    eps.foldl
        (fun z ep =>
          if (!strings.Contains ep.DNSName z.Name) = true then z
          else
            (endpointToRecord IsConfigured z ep).foldl
              (fun z r => { z with Records := op z.Records r }) z)
        z
      = { z with Records := (zoneRecords IsConfigured z eps).foldl op z.Records } := by
  induction eps generalizing z with
  | nil => rfl
  | cons ep eps ih =>
    rw [List.foldl_cons, zoneRecords_cons]
    by_cases h : strings.Contains ep.DNSName z.Name = true
    · simp only [h, Bool.not_true, Bool.false_eq_true, if_false, if_true]
      rw [foldl_setRecords, ih, List.foldl_append]
      rw [zoneRecords_congr IsConfigured
        { z with Records := (endpointToRecord IsConfigured z ep).foldl op z.Records } z eps rfl]
    · have h2 : strings.Contains ep.DNSName z.Name = false := by simpa using h
      simp only [h2, Bool.not_false, if_true, Bool.false_eq_true, if_false, List.nil_append]
      exact ih z

theorem changePass_eq (IsConfigured : TTL → Bool) (op : DNSRecords → DNSRecord → DNSRecords)
    (eps : List Endpoint) (zones : List DNS) :
    changePass IsConfigured op eps zones
      = zones.map (fun z =>
          { z with Records := (zoneRecords IsConfigured z eps).foldl op z.Records }) := by
  unfold changePass
  apply List.map_congr_left
  intro z _
  exact zoneLoop_eq IsConfigured op eps z

theorem fourPasses_eq (IsConfigured : TTL → Bool) (changes : Changes) (zones : List DNS) :
    changePass IsConfigured DNSRecords.Delete changes.UpdateOld
        (changePass IsConfigured DNSRecords.Delete changes.Delete
          (changePass IsConfigured DNSRecords.Add changes.UpdateNew
            (changePass IsConfigured DNSRecords.Add changes.Create zones)))
      = zones.map (reconciledZone IsConfigured changes) := by
  simp only [changePass_eq, List.map_map]
  apply List.map_congr_left
  intro z _
  simp only [Function.comp, reconciledZone, reconciledRecords]
  congr 1

theorem commit_calls (update : List Call → ID → DNSRecords → Option Error) (zs : List DNS)
    (calls : List Call) :
    ∃ k, k ≤ zs.length ∧ (commit update zs calls).2 = calls ++ (zs.take k).map updateCall ∧
      ((commit update zs calls).1 = none → k = zs.length) := by
  induction zs generalizing calls with
  | nil => exact ⟨0, le_refl _, by simp [commit], fun _ => rfl⟩
  | cons z zs ih =>
    cases hu : update calls z.ID z.Records with
    | some err =>
      refine ⟨1, by simp, ?_, ?_⟩
      · simp [commit, hu, updateCall]
      · simp [commit, hu]
    | none =>
      obtain ⟨k, hk, hcalls, hall⟩ := ih (calls ++ [Call.Update z.ID z.Records])
      refine ⟨k + 1, by simpa using hk, ?_, ?_⟩
      · simp only [commit, hu, hcalls]
        simp [updateCall]
      · intro h
        simp only [commit, hu] at h
        simp [hall h]

theorem ApplyChanges_run (IsConfigured : TTL → Bool) (p : SakuraCloudProvider) (L : List DNS)
    (changes : Changes) (hfind : p.Client.Find = .ok L)
    (hne : changes.Create.length + changes.Delete.length + changes.UpdateNew.length ≠ 0) :
    ApplyChanges IsConfigured p (some changes)
      = if p.DryRun = true then
          { err := none, calls := [Call.Find],
            zones := (L.filter (fun z => p.domainFilter.Match z.DNSZone)).map
              (reconciledZone IsConfigured changes) }
        else
          { err := (commit p.Client.Update
              ((L.filter (fun z => p.domainFilter.Match z.DNSZone)).map
                (reconciledZone IsConfigured changes)) [Call.Find]).1,
            calls := (commit p.Client.Update
              ((L.filter (fun z => p.domainFilter.Match z.DNSZone)).map
                (reconciledZone IsConfigured changes)) [Call.Find]).2,
            zones := (L.filter (fun z => p.domainFilter.Match z.DNSZone)).map
              (reconciledZone IsConfigured changes) } := by
  unfold ApplyChanges
  simp only [if_neg hne, Zones_ok p L hfind, fourPasses_eq]

theorem ApplyChanges_short_circuit (IsConfigured : TTL → Bool) (p : SakuraCloudProvider)
    (changes : Changes)
    (h : changes.Create.length + changes.Delete.length + changes.UpdateNew.length = 0) :
    ApplyChanges IsConfigured p (some changes) = { err := none, calls := [], zones := [] } := by
  unfold ApplyChanges
  simp only [if_pos h]

/-! ## Lemmas on the record collection -/

theorem sameIdentity_iff (a b : DNSRecord) :
    sameIdentity a b = true ↔ a.Type_ = b.Type_ ∧ a.Name = b.Name ∧ a.RData = b.RData := by
  simp only [sameIdentity, Bool.and_eq_true, decide_eq_true_eq]
  tauto

theorem mem_foldl_Delete (rs : List DNSRecord) (o : DNSRecords) (x : DNSRecord) :
    x ∈ rs.foldl DNSRecords.Delete o ↔ x ∈ o ∧ ∀ r ∈ rs, sameIdentity x r = false := by
  induction rs generalizing o with
  | nil => simp
  | cons r rs ih =>
    rw [List.foldl_cons, ih]
    simp only [DNSRecords.Delete, List.mem_filter, Bool.not_eq_true', List.mem_cons,
      forall_eq_or_imp]
    tauto

theorem subset_foldl_Add (rs : List DNSRecord) (o : DNSRecords) (x : DNSRecord) (hx : x ∈ o) :
    x ∈ rs.foldl DNSRecords.Add o := by
  induction rs generalizing o with
  | nil => exact hx
  | cons r rs ih =>
    rw [List.foldl_cons]
    apply ih
    unfold DNSRecords.Add
    split
    · exact hx
    · exact List.mem_append_left _ hx

theorem exists_mem_foldl_Add (rs : List DNSRecord) (o : DNSRecords) (r : DNSRecord)
    (hr : r ∈ rs) : ∃ x ∈ rs.foldl DNSRecords.Add o, sameIdentity x r = true := by
  induction rs generalizing o with
  | nil => cases hr
  | cons a rs ih =>
    rw [List.foldl_cons]
    rcases List.mem_cons.mp hr with rfl | hr
    · by_cases h : o.any (fun x => sameIdentity x r) = true
      · obtain ⟨x, hx, hxr⟩ := List.any_eq_true.mp h
        exact ⟨x, subset_foldl_Add rs _ x (by simp [DNSRecords.Add, h, hx]), hxr⟩
      · refine ⟨r, subset_foldl_Add rs _ r (by simp [DNSRecords.Add, h]), ?_⟩
        exact (sameIdentity_iff r r).mpr ⟨rfl, rfl, rfl⟩
    · exact ih _ hr

theorem mem_of_mem_foldl_Add (rs : List DNSRecord) (o : DNSRecords) (x : DNSRecord)
    (hx : x ∈ rs.foldl DNSRecords.Add o) : x ∈ o ∨ x ∈ rs := by
  induction rs generalizing o with
  | nil => exact Or.inl hx
  | cons a rs ih =>
    rw [List.foldl_cons] at hx
    rcases ih _ hx with h | h
    · unfold DNSRecords.Add at h
      split at h
      · exact Or.inl h
      · rcases List.mem_append.mp h with h | h
        · exact Or.inl h
        · exact Or.inr (by simp at h; simp [h])
    · exact Or.inr (List.mem_cons_of_mem _ h)

theorem mem_zoneRecords (IsConfigured : TTL → Bool) (z : DNS) (eps : List Endpoint)
    (r : DNSRecord) :
    r ∈ zoneRecords IsConfigured z eps ↔
      ∃ ep ∈ eps, strings.Contains ep.DNSName z.Name = true ∧
        r ∈ endpointToRecord IsConfigured z ep := by
  simp only [zoneRecords, List.mem_flatMap, List.mem_filter]
  constructor
  · rintro ⟨ep, ⟨h1, h2⟩, h3⟩
    exact ⟨ep, h1, h2, h3⟩
  · rintro ⟨ep, h1, h2, h3⟩
    exact ⟨ep, ⟨h1, h2⟩, h3⟩

theorem ApplyChanges_zones (IsConfigured : TTL → Bool) (p : SakuraCloudProvider)
    (L : List DNS) (changes : Changes) (hfind : p.Client.Find = .ok L)
    (hne : changes.Create.length + changes.Delete.length + changes.UpdateNew.length ≠ 0) :
    (ApplyChanges IsConfigured p (some changes)).zones
      = (L.filter (fun z => p.domainFilter.Match z.DNSZone)).map
          (reconciledZone IsConfigured changes) := by
  rw [ApplyChanges_run IsConfigured p L changes hfind hne]
  split <;> rfl

theorem ApplyChanges_calls (IsConfigured : TTL → Bool) (p : SakuraCloudProvider)
    (L : List DNS) (changes : Changes) (hfind : p.Client.Find = .ok L)
    (hne : changes.Create.length + changes.Delete.length + changes.UpdateNew.length ≠ 0) :
    ∃ k, (ApplyChanges IsConfigured p (some changes)).calls
        = Call.Find :: ((ApplyChanges IsConfigured p (some changes)).zones.take k).map
            (fun z => Call.Update z.ID z.Records) ∧
      (p.DryRun = false → (ApplyChanges IsConfigured p (some changes)).err = none →
        k = (ApplyChanges IsConfigured p (some changes)).zones.length) := by
  rw [ApplyChanges_run IsConfigured p L changes hfind hne]
  by_cases hd : p.DryRun = true
  · simp only [if_pos hd]
    exact ⟨0, by simp, fun h => by simp [hd] at h⟩
  · simp only [if_neg hd]
    obtain ⟨k, _, hcalls, hall⟩ := commit_calls p.Client.Update
      ((L.filter (fun z => p.domainFilter.Match z.DNSZone)).map
        (reconciledZone IsConfigured changes)) [Call.Find]
    exact ⟨k, by rw [hcalls]; rfl, fun _ h => hall h⟩

theorem not_mem_reconciledRecords (IsConfigured : TTL → Bool) (changes : Changes) (z : DNS)
    (e : Endpoint) (he : e ∈ changes.Delete ∨ e ∈ changes.UpdateOld)
    (hc : strings.Contains e.DNSName z.Name = true) (r : DNSRecord)
    (hr : r ∈ endpointToRecord IsConfigured z e) (x : DNSRecord)
    (hx : x ∈ reconciledRecords IsConfigured changes z) :
    ¬ (x.Type_ = r.Type_ ∧ x.Name = r.Name ∧ x.RData = r.RData) := by
  intro hid
  have hsame : sameIdentity x r = true := (sameIdentity_iff x r).mpr hid
  unfold reconciledRecords at hx
  obtain ⟨hx3, hold⟩ := (mem_foldl_Delete _ _ x).mp hx
  obtain ⟨_, hdel⟩ := (mem_foldl_Delete _ _ x).mp hx3
  rcases he with he | he
  · have := hdel r ((mem_zoneRecords IsConfigured z _ r).mpr ⟨e, he, hc, hr⟩)
    rw [hsame] at this
    cases this
  · have := hold r ((mem_zoneRecords IsConfigured z _ r).mpr ⟨e, he, hc, hr⟩)
    rw [hsame] at this
    cases this

theorem length_ne_zero_of_mem {α : Type} (a : α) (l : List α) (h : a ∈ l) : l.length ≠ 0 := by
  cases l with
  | nil => cases h
  | cons b l => simp

/-! ## Name translation (C1, C2) -/

/-- C1 (name round-trip). When the listing succeeds, `Records` returns, for every
record of a supported type with a name `n` other than the apex marker in a listed zone
named `z`, an endpoint with DNS name `n ++ "." ++ z` (carrying the record's type,
value and TTL); and `getStrippedRecordName`, applied to any zone and any endpoint whose
DNS name is `n ++ "." ++` the zone name, returns exactly `n`. -/
theorem records_name_round_trip (SupportedRecordType : String → Bool)
    (p : SakuraCloudProvider) (L : List DNS) (hfind : p.Client.Find = .ok L) :
    (∃ eps, (Records SupportedRecordType p).2 = .ok eps ∧
      ∀ z ∈ L, p.domainFilter.Match z.DNSZone = true →
        ∀ r ∈ z.Records, SupportedRecordType r.Type_ = true → r.Name ≠ "@" →
          ∃ ep ∈ eps, ep.DNSName = r.Name ++ "." ++ z.Name ∧ ep.RecordType = r.Type_ ∧
            ep.Targets = [r.RData] ∧ ep.RecordTTL = r.TTL ∧
            getStrippedRecordName z ep = r.Name) ∧
    (∀ (zone : DNS) (ep : Endpoint) (n : String), n ≠ "@" →
      ep.DNSName = n ++ "." ++ zone.Name → getStrippedRecordName zone ep = n) := by
  refine ⟨?_, fun zone ep n _ h => getStrippedRecordName_append zone ep n h⟩
  obtain ⟨eps, heps, hmem⟩ := mem_Records_of_mem SupportedRecordType p L hfind
  refine ⟨eps, heps, ?_⟩
  intro z hz hm r hr hs hn
  have hname : (recordEndpoint z r).DNSName = r.Name ++ "." ++ z.Name := by
    simp [recordEndpoint, NewEndpointWithTTL, hn]
  exact ⟨recordEndpoint z r, hmem z hz hm r hr hs, hname, rfl, rfl, rfl,
    getStrippedRecordName_append z _ r.Name hname⟩

/-- The zone `example.com` lists its record `www` as the endpoint `www.example.com`,
and that name is stripped back to `www`. -/
theorem records_name_round_trip_witness :
    (providerOf [exampleZone] false).Client.Find = .ok [exampleZone] ∧
    (Records supportedTypes (providerOf [exampleZone] false)).2
      = .ok [{ DNSName := "www.example.com", Targets := ["1.1.1.1"], RecordType := "A",
               RecordTTL := 300 }] ∧
    getStrippedRecordName exampleZone
      { DNSName := "www.example.com", Targets := ["1.1.1.1"], RecordType := "A",
        RecordTTL := 300 } = "www" :=
  ⟨rfl, by rfl,
    (records_name_round_trip supportedTypes (providerOf [exampleZone] false) [exampleZone]
      rfl).2 exampleZone _ "www" (by decide) (by decide)⟩

/-- C2 (apex handling). When the listing succeeds, `Records` returns, for every record
of a supported type named `"@"` in a listed zone named `z`, an endpoint whose DNS name
is exactly `z`; and `getStrippedRecordName`, applied to any zone and any endpoint whose
DNS name is exactly the zone name, returns `"@"`, which is not the empty string. -/
theorem records_apex (SupportedRecordType : String → Bool)
    (p : SakuraCloudProvider) (L : List DNS) (hfind : p.Client.Find = .ok L) :
    (∃ eps, (Records SupportedRecordType p).2 = .ok eps ∧
      ∀ z ∈ L, p.domainFilter.Match z.DNSZone = true →
        ∀ r ∈ z.Records, SupportedRecordType r.Type_ = true → r.Name = "@" →
          ∃ ep ∈ eps, ep.DNSName = z.Name ∧ ep.RecordType = r.Type_ ∧
            ep.Targets = [r.RData] ∧ ep.RecordTTL = r.TTL ∧
            getStrippedRecordName z ep = "@") ∧
    (∀ (zone : DNS) (ep : Endpoint), ep.DNSName = zone.Name →
      getStrippedRecordName zone ep = "@" ∧ getStrippedRecordName zone ep ≠ "") := by
  refine ⟨?_, fun zone ep h => ?_⟩
  · obtain ⟨eps, heps, hmem⟩ := mem_Records_of_mem SupportedRecordType p L hfind
    refine ⟨eps, heps, ?_⟩
    intro z hz hm r hr hs hn
    have hname : (recordEndpoint z r).DNSName = z.Name := by
      simp [recordEndpoint, NewEndpointWithTTL, hn]
    exact ⟨recordEndpoint z r, hmem z hz hm r hr hs, hname, rfl, rfl, rfl,
      getStrippedRecordName_apex z _ hname⟩
  · rw [getStrippedRecordName_apex zone ep h]
    exact ⟨rfl, by decide⟩

/-- A zone `example.com` holding an apex record lists it as the endpoint
`example.com`, and that name is translated back to `"@"`. -/
theorem records_apex_witness :
    (providerOf [{ exampleZone with
        Records := [{ Name := "@", Type_ := "A", RData := "1.1.1.1", TTL := 300 }] }]
      false).Client.Find
      = .ok [{ exampleZone with
          Records := [{ Name := "@", Type_ := "A", RData := "1.1.1.1", TTL := 300 }] }] ∧
    (Records supportedTypes (providerOf [{ exampleZone with
        Records := [{ Name := "@", Type_ := "A", RData := "1.1.1.1", TTL := 300 }] }]
      false)).2
      = .ok [{ DNSName := "example.com", Targets := ["1.1.1.1"], RecordType := "A",
               RecordTTL := 300 }] ∧
    getStrippedRecordName exampleZone
      { DNSName := "example.com", Targets := ["1.1.1.1"], RecordType := "A",
        RecordTTL := 300 } = "@" :=
  ⟨rfl, by rfl,
    ((records_apex supportedTypes (providerOf [{ exampleZone with
        Records := [{ Name := "@", Type_ := "A", RData := "1.1.1.1", TTL := 300 }] }] false)
      _ rfl).2 exampleZone _ (by decide)).1⟩


/-! ## Record translation (C3, C4, C5) -/

/-- C3 (TTL defaulting). Every record returned by `endpointToRecord` has TTL 300 when
the endpoint's TTL is not configured, and TTL exactly `t` when the endpoint's TTL is
configured with value `t`. -/
theorem endpointToRecord_ttl (IsConfigured : TTL → Bool) (zone : DNS) (ep : Endpoint)
    (r : DNSRecord) (hr : r ∈ endpointToRecord IsConfigured zone ep) :
    (IsConfigured ep.RecordTTL = false → r.TTL = 300) ∧
    (∀ t : Int, IsConfigured ep.RecordTTL = true → ep.RecordTTL = t → r.TTL = t) := by
  rw [endpointToRecord_eq_map] at hr
  obtain ⟨target, _, rfl⟩ := List.mem_map.mp hr
  constructor
  · intro h
    simp [targetRecord, NewDNSRecord, h, sakuraCloudRecordTTL]
  · intro t h ht
    subst ht
    simp [targetRecord, NewDNSRecord, h]

/-- The endpoint `api.example.com` without a configured TTL is translated with TTL
300, and with the configured TTL 60 it is translated with TTL 60. -/
theorem endpointToRecord_ttl_witness :
    (endpointToRecord ttlConfigured exampleZone (apiEndpoint 0) = [apiRecord 300] ∧
      (apiRecord 300).TTL = 300) ∧
    (endpointToRecord ttlConfigured exampleZone (apiEndpoint 60) = [apiRecord 60] ∧
      (apiRecord 60).TTL = 60) :=
  ⟨⟨by decide,
      (endpointToRecord_ttl ttlConfigured exampleZone (apiEndpoint 0) (apiRecord 300)
        (by decide)).1 (by decide)⟩,
    ⟨by decide,
      (endpointToRecord_ttl ttlConfigured exampleZone (apiEndpoint 60) (apiRecord 60)
        (by decide)).2 60 (by decide) rfl⟩⟩

/-- C4 (multi-value fan-out). For an endpoint with `k` targets `endpointToRecord`
returns exactly `k` records, and the `i`-th one has the endpoint's record type, the
name `getStrippedRecordName zone ep`, the TTL shared by all of them, and as value the
`i`-th target with one leading and one trailing double-quote stripped. -/
theorem endpointToRecord_fan_out (IsConfigured : TTL → Bool) (zone : DNS) (ep : Endpoint) :
    (endpointToRecord IsConfigured zone ep).length = ep.Targets.length ∧
    ∀ i : Nat, (endpointToRecord IsConfigured zone ep)[i]?
      = ep.Targets[i]?.map (fun target =>
          { Name := getStrippedRecordName zone ep,
            Type_ := ep.RecordType,
            RData := strings.TrimSuffix (strings.TrimPrefix target "\"") "\"",
            TTL := if IsConfigured ep.RecordTTL then ep.RecordTTL else 300 }) := by
  rw [endpointToRecord_eq_map]
  refine ⟨List.length_map _ _, fun i => ?_⟩
  rw [List.getElem?_map]
  rfl

/-- C5 (quote stripping). For the `i`-th target of an endpoint and the `i`-th record
`endpointToRecord` returns: a target `"\"" ++ v ++ "\""` gives the value `v`; a target
that neither starts nor ends with a double-quote gives itself; and the value is at most
2 characters shorter than the target. -/
theorem endpointToRecord_quote_stripping (IsConfigured : TTL → Bool) (zone : DNS)
    (ep : Endpoint) (i : Nat) (target : String) (r : DNSRecord)
    (ht : ep.Targets[i]? = some target)
    (hr : (endpointToRecord IsConfigured zone ep)[i]? = some r) :
    (∀ v : String, target = "\"" ++ v ++ "\"" → r.RData = v) ∧
    (strings.HasPrefix target "\"" = false → strings.HasSuffix target "\"" = false →
      r.RData = target) ∧
    target.length ≤ r.RData.length + 2 := by
  rw [endpointToRecord_eq_map, List.getElem?_map, ht] at hr
  have hr2 : r = targetRecord IsConfigured zone ep target := by
    simpa using hr.symm
  have hd : r.RData = strings.TrimSuffix (strings.TrimPrefix target "\"") "\"" := by
    rw [hr2]; rfl
  rw [hd]
  refine ⟨?_, ?_, ?_⟩
  · intro v hv
    rw [hv, String.append_assoc, trimPrefix_append, trimSuffix_append]
  · intro hp hs
    rw [trimPrefix_of_not_hasPrefix target _ hp, trimSuffix_of_not_hasSuffix target _ hs]
  · have h1 := length_trimPrefix_quote target
    have h2 := length_trimSuffix_quote (strings.TrimPrefix target "\"")
    omega

/-- The doubly quoted target `""x""` is translated to the value `"x"`: one quote is
removed at each end, and no more. -/
theorem endpointToRecord_quote_stripping_witness :
    endpointToRecord ttlConfigured exampleZone quotedEndpoint = [quotedRecord] ∧
    quotedRecord.RData = "\"x\"" :=
  ⟨by decide,
    (endpointToRecord_quote_stripping ttlConfigured exampleZone quotedEndpoint 0
      "\"\"x\"\"" quotedRecord (by decide) (by decide)).1 "\"x\"" (by decide)⟩

/-! ## Reconciliation (C6 to C10) -/

/-- C6 as stated fails. `www.example.com A 1.1.1.1` is in both `UpdateNew` and
`UpdateOld` and matches the zone `example.com`, which holds the record translated from
it; after `ApplyChanges` the zone's collection is empty, in memory and in the update
call, so the endpoint nets to absent. -/
theorem update_same_value_counterexample :
    wwwEndpoint 0 ∈ sameUpdate.UpdateNew ∧ wwwEndpoint 0 ∈ sameUpdate.UpdateOld ∧
    strings.Contains (wwwEndpoint 0).DNSName exampleZone.Name = true ∧
    endpointToRecord ttlConfigured exampleZone (wwwEndpoint 0) = [wwwRecord 300] ∧
    ApplyChanges ttlConfigured (providerOf [exampleZone] false) (some sameUpdate)
      = { err := none, calls := [Call.Find, Call.Update 1 []],
          zones := [{ exampleZone with Records := [] }] } ∧
    ∀ z ∈ (ApplyChanges ttlConfigured (providerOf [exampleZone] false) (some sameUpdate)).zones,
      wwwRecord 300 ∉ z.Records := by
  decide

/-- C6, amended (update ordering). When the listing succeeds, for every listed zone `z`
and every endpoint `e` that is in both `UpdateNew` and `UpdateOld` and whose DNS name
contains the name of `z`, the in-memory record collection of `z` after `ApplyChanges`
holds no record with the type, name and value of a record translated from `e`: the
`UpdateOld` removals run after the `UpdateNew` additions. -/
theorem update_same_value_nets_to_absent (IsConfigured : TTL → Bool)
    (p : SakuraCloudProvider) (L : List DNS) (changes : Changes) (e : Endpoint)
    (hfind : p.Client.Find = .ok L) (hnew : e ∈ changes.UpdateNew)
    (hold : e ∈ changes.UpdateOld) :
    List.Forall₂
      (fun z z' => z'.ID = z.ID ∧ z'.Name = z.Name ∧
        (strings.Contains e.DNSName z.Name = true →
          ∀ r ∈ endpointToRecord IsConfigured z e, ∀ x ∈ z'.Records,
            ¬ (x.Type_ = r.Type_ ∧ x.Name = r.Name ∧ x.RData = r.RData)))
      (L.filter (fun z => p.domainFilter.Match z.DNSZone))
      (ApplyChanges IsConfigured p (some changes)).zones := by
  have hne : changes.Create.length + changes.Delete.length + changes.UpdateNew.length ≠ 0 := by
    have := length_ne_zero_of_mem e _ hnew
    omega
  rw [ApplyChanges_zones IsConfigured p L changes hfind hne, List.forall₂_map_right_iff,
    List.forall₂_same]
  intro z _
  refine ⟨rfl, rfl, fun hc r hr x hx => ?_⟩
  exact not_mem_reconciledRecords IsConfigured changes z e (Or.inr hold) hc r hr x hx

/-- The update of `www.example.com` to its own value removes the record `www` from the
zone `example.com`. -/
theorem update_same_value_nets_to_absent_witness :
    (providerOf [exampleZone] false).Client.Find = .ok [exampleZone] ∧
    List.Forall₂
      (fun z z' => z'.ID = z.ID ∧ z'.Name = z.Name ∧
        (strings.Contains (wwwEndpoint 0).DNSName z.Name = true →
          ∀ r ∈ endpointToRecord ttlConfigured z (wwwEndpoint 0), ∀ x ∈ z'.Records,
            ¬ (x.Type_ = r.Type_ ∧ x.Name = r.Name ∧ x.RData = r.RData)))
      ([exampleZone].filter (fun z => (providerOf [exampleZone] false).domainFilter.Match z.DNSZone))
      (ApplyChanges ttlConfigured (providerOf [exampleZone] false) (some sameUpdate)).zones :=
  ⟨rfl, update_same_value_nets_to_absent ttlConfigured (providerOf [exampleZone] false)
    [exampleZone] sameUpdate (wwwEndpoint 0) rfl (by decide) (by decide)⟩

/-- C7 (delete wins). When the listing succeeds, for every listed zone `z` and every
endpoint `e` of `Delete` whose DNS name contains the name of `z`, the record collection
of `z` after `ApplyChanges` holds no record with the type, name and value of a record
that `endpointToRecord` produces for `e`, whatever the TTLs and whatever the other
lists contain; and every update call that is issued carries that collection. -/
theorem delete_wins (IsConfigured : TTL → Bool) (p : SakuraCloudProvider) (L : List DNS)
    (changes : Changes) (e : Endpoint) (hfind : p.Client.Find = .ok L)
    (hdel : e ∈ changes.Delete) :
    List.Forall₂
      (fun z z' => z'.ID = z.ID ∧ z'.Name = z.Name ∧
        (strings.Contains e.DNSName z.Name = true →
          ∀ r ∈ endpointToRecord IsConfigured z e, ∀ x ∈ z'.Records,
            ¬ (x.Type_ = r.Type_ ∧ x.Name = r.Name ∧ x.RData = r.RData)))
      (L.filter (fun z => p.domainFilter.Match z.DNSZone))
      (ApplyChanges IsConfigured p (some changes)).zones ∧
    ∃ k, (ApplyChanges IsConfigured p (some changes)).calls
      = Call.Find :: ((ApplyChanges IsConfigured p (some changes)).zones.take k).map
          (fun z' => Call.Update z'.ID z'.Records) := by
  have hne : changes.Create.length + changes.Delete.length + changes.UpdateNew.length ≠ 0 := by
    have := length_ne_zero_of_mem e _ hdel
    omega
  constructor
  · rw [ApplyChanges_zones IsConfigured p L changes hfind hne, List.forall₂_map_right_iff,
      List.forall₂_same]
    intro z _
    refine ⟨rfl, rfl, fun hc r hr x hx => ?_⟩
    exact not_mem_reconciledRecords IsConfigured changes z e (Or.inl hdel) hc r hr x hx
  · obtain ⟨k, hk, _⟩ := ApplyChanges_calls IsConfigured p L changes hfind hne
    exact ⟨k, hk⟩

/-- Deleting `www.example.com A 1.1.1.1` from the zone `example.com` holding
`www A 1.1.1.1` with TTL 300 commits the empty collection. -/
theorem delete_wins_witness :
    ApplyChanges ttlConfigured (providerOf [exampleZone] false) (some deleteWww)
      = { err := none, calls := [Call.Find, Call.Update 1 []],
          zones := [{ exampleZone with Records := [] }] } ∧
    List.Forall₂
      (fun z z' => z'.ID = z.ID ∧ z'.Name = z.Name ∧
        (strings.Contains (wwwEndpoint 0).DNSName z.Name = true →
          ∀ r ∈ endpointToRecord ttlConfigured z (wwwEndpoint 0), ∀ x ∈ z'.Records,
            ¬ (x.Type_ = r.Type_ ∧ x.Name = r.Name ∧ x.RData = r.RData)))
      ([exampleZone].filter (fun z => (providerOf [exampleZone] false).domainFilter.Match z.DNSZone))
      (ApplyChanges ttlConfigured (providerOf [exampleZone] false) (some deleteWww)).zones :=
  ⟨by decide, (delete_wins ttlConfigured (providerOf [exampleZone] false) [exampleZone]
    deleteWww (wwwEndpoint 0) rfl (by decide)).1⟩

/-- C8 as stated fails. The zone `example.com` holds `api A 2.2.2.2` with TTL 600 and
`Create` holds `api.example.com A 2.2.2.2` with no configured TTL, which
`endpointToRecord` translates to the record with TTL 300. Dry-run is off, listing and
commit succeed, and the one update call carries the record with TTL 600 only: `Add`
keeps the record that already has this type, name and value. -/
theorem create_end_to_end_counterexample :
    createApi.Create ≠ [] ∧ createApi.UpdateNew = [] ∧ createApi.Delete = [] ∧
    createApi.UpdateOld = [] ∧
    strings.Contains (apiEndpoint 0).DNSName staleZone.Name = true ∧
    apiRecord 300 ∈ endpointToRecord ttlConfigured staleZone (apiEndpoint 0) ∧
    ApplyChanges ttlConfigured (providerOf [staleZone] false) (some createApi)
      = { err := none, calls := [Call.Find, Call.Update 1 [apiRecord 600]],
          zones := [staleZone] } ∧
    apiRecord 300 ∉ [apiRecord 600] := by
  decide

/-- C8, amended (create end-to-end). When dry-run is off, the listing succeeds, the
change set has a non-empty `Create` list and empty `UpdateNew`, `Delete` and
`UpdateOld` lists, and `ApplyChanges` returns no error, then exactly one update call
is issued per listed zone, in order, with the zone's ID and its record collection, and
that collection contains every record the zone held before and, for every record `r`
that `endpointToRecord` produces for a `Create` endpoint whose DNS name contains the
zone name, a record with the type, name and value of `r`; every record it contains was
held before or is such an `r`. -/
theorem create_end_to_end (IsConfigured : TTL → Bool) (p : SakuraCloudProvider)
    (L : List DNS) (changes : Changes) (hdry : p.DryRun = false)
    (hfind : p.Client.Find = .ok L) (hcreate : changes.Create ≠ [])
    (hnew : changes.UpdateNew = []) (hdel : changes.Delete = [])
    (hold : changes.UpdateOld = [])
    (hok : (ApplyChanges IsConfigured p (some changes)).err = none) :
    (ApplyChanges IsConfigured p (some changes)).calls
      = Call.Find :: (ApplyChanges IsConfigured p (some changes)).zones.map
          (fun z' => Call.Update z'.ID z'.Records) ∧
    List.Forall₂
      (fun z z' => z'.ID = z.ID ∧ z'.Name = z.Name ∧
        (∀ x ∈ z.Records, x ∈ z'.Records) ∧
        (∀ ep ∈ changes.Create, strings.Contains ep.DNSName z.Name = true →
          ∀ r ∈ endpointToRecord IsConfigured z ep,
            ∃ x ∈ z'.Records, x.Type_ = r.Type_ ∧ x.Name = r.Name ∧ x.RData = r.RData) ∧
        (∀ x ∈ z'.Records, x ∈ z.Records ∨
          ∃ ep ∈ changes.Create, strings.Contains ep.DNSName z.Name = true ∧
            x ∈ endpointToRecord IsConfigured z ep))
      (L.filter (fun z => p.domainFilter.Match z.DNSZone))
      (ApplyChanges IsConfigured p (some changes)).zones := by
  have hne : changes.Create.length + changes.Delete.length + changes.UpdateNew.length ≠ 0 := by
    have : changes.Create.length ≠ 0 := fun h => hcreate (List.length_eq_zero.mp h)
    omega
  constructor
  · obtain ⟨k, hk, hall⟩ := ApplyChanges_calls IsConfigured p L changes hfind hne
    rw [hk, hall hdry hok, List.take_length]
  · rw [ApplyChanges_zones IsConfigured p L changes hfind hne, List.forall₂_map_right_iff,
      List.forall₂_same]
    intro z _
    have hrec : (reconciledZone IsConfigured changes z).Records
        = (zoneRecords IsConfigured z changes.Create).foldl DNSRecords.Add z.Records := by
      simp [reconciledZone, reconciledRecords, hnew, hdel, hold, zoneRecords]
    rw [hrec]
    refine ⟨rfl, rfl, fun x hx => subset_foldl_Add _ _ x hx, fun ep hep hc r hr => ?_,
      fun x hx => ?_⟩
    · obtain ⟨x, hx, hxr⟩ := exists_mem_foldl_Add (zoneRecords IsConfigured z changes.Create)
        z.Records r ((mem_zoneRecords IsConfigured z _ r).mpr ⟨ep, hep, hc, hr⟩)
      exact ⟨x, hx, (sameIdentity_iff x r).mp hxr⟩
    · rcases mem_of_mem_foldl_Add _ _ x hx with h | h
      · exact Or.inl h
      · exact Or.inr ((mem_zoneRecords IsConfigured z _ x).mp h)

/-- The zone `example.com` (ID 1) holding `www A 1.1.1.1` with TTL 300, with
`Create = [api.example.com A 2.2.2.2]` and no configured TTL: one update call for ID 1
carries the `www` record and `api A 2.2.2.2` with TTL 300. -/
theorem create_end_to_end_witness :
    ApplyChanges ttlConfigured (providerOf [exampleZone] false) (some createApi)
      = { err := none,
          calls := [Call.Find, Call.Update 1 [wwwRecord 300, apiRecord 300]],
          zones := [{ exampleZone with Records := [wwwRecord 300, apiRecord 300] }] } ∧
    (ApplyChanges ttlConfigured (providerOf [exampleZone] false) (some createApi)).calls
      = Call.Find :: (ApplyChanges ttlConfigured (providerOf [exampleZone] false)
          (some createApi)).zones.map (fun z' => Call.Update z'.ID z'.Records) :=
  ⟨by decide, (create_end_to_end ttlConfigured (providerOf [exampleZone] false) [exampleZone]
    createApi rfl rfl (by decide) rfl rfl rfl (by decide)).1⟩

/-- C9 (no-op guarantee). If the change set is nil, or its `Create`, `Delete` and
`UpdateNew` lists are all empty (whatever `UpdateOld` holds), `ApplyChanges` returns
success, issues no provider call (neither the listing nor an update) and obtains and
mutates no zone object, so every record collection is left as it was. -/
theorem applyChanges_noop (IsConfigured : TTL → Bool) (p : SakuraCloudProvider)
    (changes : Option Changes)
    (h : changes = none ∨
      ∃ c, changes = some c ∧ c.Create = [] ∧ c.Delete = [] ∧ c.UpdateNew = []) :
    (ApplyChanges IsConfigured p changes).err = none ∧
    (ApplyChanges IsConfigured p changes).calls = [] ∧
    (ApplyChanges IsConfigured p changes).zones = [] := by
  rcases h with rfl | ⟨c, rfl, h1, h2, h3⟩
  · exact ⟨rfl, rfl, rfl⟩
  · rw [ApplyChanges_short_circuit IsConfigured p c (by simp [h1, h2, h3])]
    exact ⟨rfl, rfl, rfl⟩

/-- A change set with an endpoint in `UpdateOld` only is a no-op: no call is issued
and the record `www` of `example.com` is not removed. -/
theorem applyChanges_noop_witness :
    ApplyChanges ttlConfigured (providerOf [exampleZone] false) (some onlyUpdateOld)
      = { err := none, calls := [], zones := [] } ∧
    (ApplyChanges ttlConfigured (providerOf [exampleZone] false) (some onlyUpdateOld)).calls
      = [] :=
  ⟨by decide, (applyChanges_noop ttlConfigured (providerOf [exampleZone] false)
    (some onlyUpdateOld) (Or.inr ⟨onlyUpdateOld, rfl, rfl, rfl, rfl⟩)).2.1⟩

/-- C10 (dry-run guarantee). With `DryRun` set and the listing succeeding, for every
change set `ApplyChanges` returns success and issues no update call; the same call with
`DryRun` unset leaves the same in-memory zones, and its update calls carry, zone by
zone and in order, the IDs and record collections of the zones the dry run leaves in
memory: for the zones up to the first failing update, and for all of them when it
returns no error. -/
theorem dry_run_guarantee (IsConfigured : TTL → Bool) (p : SakuraCloudProvider)
    (L : List DNS) (changes : Option Changes) (hfind : p.Client.Find = .ok L)
    (hdry : p.DryRun = true) :
    (ApplyChanges IsConfigured p changes).err = none ∧
    (∀ id records, Call.Update id records ∉ (ApplyChanges IsConfigured p changes).calls) ∧
    (ApplyChanges IsConfigured { p with DryRun := false } changes).zones
      = (ApplyChanges IsConfigured p changes).zones ∧
    ∃ k, (ApplyChanges IsConfigured { p with DryRun := false } changes).calls
        = (ApplyChanges IsConfigured p changes).calls
          ++ ((ApplyChanges IsConfigured p changes).zones.take k).map
              (fun z => Call.Update z.ID z.Records) ∧
      ((ApplyChanges IsConfigured { p with DryRun := false } changes).err = none →
        k = (ApplyChanges IsConfigured p changes).zones.length) := by
  cases changes with
  | none => exact ⟨rfl, fun _ _ h => (by cases h), rfl, 0, rfl, fun _ => rfl⟩
  | some c =>
    by_cases hz : c.Create.length + c.Delete.length + c.UpdateNew.length = 0
    · rw [ApplyChanges_short_circuit IsConfigured p c hz,
        ApplyChanges_short_circuit IsConfigured { p with DryRun := false } c hz]
      exact ⟨rfl, fun _ _ h => (by cases h), rfl, 0, rfl, fun _ => rfl⟩
    · have hwet := ApplyChanges_calls IsConfigured { p with DryRun := false } L c hfind hz
      have hwz := ApplyChanges_zones IsConfigured { p with DryRun := false } L c hfind hz
      have hdz := ApplyChanges_zones IsConfigured p L c hfind hz
      have hrun := ApplyChanges_run IsConfigured p L c hfind hz
      rw [if_pos hdry] at hrun
      obtain ⟨k, hk, hall⟩ := hwet
      have hzz : (ApplyChanges IsConfigured { p with DryRun := false } c).zones
          = (ApplyChanges IsConfigured p c).zones := by rw [hwz, hdz]
      refine ⟨by rw [hrun], ?_, hzz, k, ?_, ?_⟩
      · intro id records h
        rw [hrun] at h
        simp at h
      · rw [hk, hzz, hrun]
        rfl
      · intro h
        rw [← hzz]
        exact hall rfl h

/-- In dry-run mode the creation of `api.example.com` issues the listing call only;
the zone left in memory holds the two records that the same call without dry-run
sends in its update call. -/
theorem dry_run_guarantee_witness :
    ApplyChanges ttlConfigured (providerOf [exampleZone] true) (some createApi)
      = { err := none, calls := [Call.Find],
          zones := [{ exampleZone with Records := [wwwRecord 300, apiRecord 300] }] } ∧
    ApplyChanges ttlConfigured { providerOf [exampleZone] true with DryRun := false }
        (some createApi)
      = { err := none,
          calls := [Call.Find, Call.Update 1 [wwwRecord 300, apiRecord 300]],
          zones := [{ exampleZone with Records := [wwwRecord 300, apiRecord 300] }] } ∧
    (ApplyChanges ttlConfigured (providerOf [exampleZone] true) (some createApi)).err = none :=
  ⟨by decide, by decide, (dry_run_guarantee ttlConfigured (providerOf [exampleZone] true)
    [exampleZone] (some createApi) rfl rfl).1⟩

/-! ## Failures of the provider calls (C11, C12) -/

theorem commit_first_failure (update : List Call → ID → DNSRecords → Option Error)
    (zs : List DNS) (calls : List Call) (N : Nat) (z : DNS) (e : Error)
    (hz : zs[N]? = some z)
    (hprev : ∀ i, i < N → ∀ zi, zs[i]? = some zi →
      update (calls ++ (zs.take i).map updateCall) zi.ID zi.Records = none)
    (hfail : update (calls ++ (zs.take N).map updateCall) z.ID z.Records = some e) :
    commit update zs calls = (some e, calls ++ (zs.take (N + 1)).map updateCall) := by
  induction zs generalizing calls N with
  | nil => simp at hz
  | cons a zs ih =>
    cases N with
    | zero =>
      simp only [List.getElem?_cons_zero, Option.some.injEq] at hz
      subst hz
      simp only [List.take_zero, List.map_nil, List.append_nil] at hfail
      simp [commit, hfail, updateCall]
    | succ N =>
      have h0 : update calls a.ID a.Records = none := by
        have := hprev 0 (Nat.succ_pos N) a (by simp)
        simpa using this
      simp only [List.getElem?_cons_succ] at hz
      have hstep := ih (calls ++ [Call.Update a.ID a.Records]) N hz
        (fun i hi zi hzi => by
          have := hprev (i + 1) (Nat.succ_lt_succ hi) zi (by simpa using hzi)
          simpa [updateCall] using this)
        (by simpa [updateCall] using hfail)
      simp only [commit, h0, hstep]
      simp [updateCall]

/-- C11 (commit failure). With `DryRun` unset, the listing succeeding and a change set
that is not a no-op, let `z` be the zone at position `N` of the zones `ApplyChanges`
works on (counted from 0, in listing order). If the update calls for the zones before
`z` succeed and the update call for `z` fails with the error `e`, then `ApplyChanges`
returns exactly `e`, and its calls are the listing call followed by the update calls
for the first `N + 1` zones, in order: none is issued for a later zone and none undoes
an earlier one. The zones have the IDs of the listed zones that pass the filter. -/
theorem commit_failure (IsConfigured : TTL → Bool) (p : SakuraCloudProvider) (L : List DNS)
    (changes : Changes) (N : Nat) (z : DNS) (e : Error)
    (hdry : p.DryRun = false) (hfind : p.Client.Find = .ok L)
    (hne : changes.Create.length + changes.Delete.length + changes.UpdateNew.length ≠ 0)
    (hz : (ApplyChanges IsConfigured p (some changes)).zones[N]? = some z)
    (hprev : ∀ i, i < N → ∀ zi,
      (ApplyChanges IsConfigured p (some changes)).zones[i]? = some zi →
      p.Client.Update
        (Call.Find :: ((ApplyChanges IsConfigured p (some changes)).zones.take i).map
          (fun z' => Call.Update z'.ID z'.Records)) zi.ID zi.Records = none)
    (hfail : p.Client.Update
        (Call.Find :: ((ApplyChanges IsConfigured p (some changes)).zones.take N).map
          (fun z' => Call.Update z'.ID z'.Records)) z.ID z.Records = some e) :
    (ApplyChanges IsConfigured p (some changes)).err = some e ∧
    (ApplyChanges IsConfigured p (some changes)).calls
      = Call.Find :: ((ApplyChanges IsConfigured p (some changes)).zones.take (N + 1)).map
          (fun z' => Call.Update z'.ID z'.Records) ∧
    (ApplyChanges IsConfigured p (some changes)).zones.map (fun z' => z'.ID)
      = (L.filter (fun z => p.domainFilter.Match z.DNSZone)).map (fun z => z.ID) := by
  have hzones := ApplyChanges_zones IsConfigured p L changes hfind hne
  rw [hzones] at hz hprev hfail
  have hc := commit_first_failure p.Client.Update _ [Call.Find] N z e hz hprev hfail
  have hrun := ApplyChanges_run IsConfigured p L changes hfind hne
  have hd : ¬ p.DryRun = true := by simp [hdry]
  rw [if_neg hd, hc] at hrun
  rw [hrun]
  refine ⟨rfl, rfl, ?_⟩
  simp [List.map_map, Function.comp, reconciledZone]

/-- Three zones are listed, `example.com` (ID 1), `example.org` (ID 3) and `ple.com`
(ID 2), and the update of ID 3 fails with `boom`: `ApplyChanges` returns `boom` after
the update calls for ID 1 and ID 3, and issues none for ID 2. -/
theorem commit_failure_witness :
    ApplyChanges ttlConfigured (failingProvider [exampleZone, orgZone, pleZone] 3 "boom")
        (some createApi)
      = { err := some "boom",
          calls := [Call.Find, Call.Update 1 [wwwRecord 300, apiRecord 300], Call.Update 3 []],
          zones := [{ exampleZone with Records := [wwwRecord 300, apiRecord 300] }, orgZone,
            { pleZone with Records :=
                [{ Name := "api.example.com", Type_ := "A", RData := "2.2.2.2", TTL := 300 }] }] } ∧
    (ApplyChanges ttlConfigured (failingProvider [exampleZone, orgZone, pleZone] 3 "boom")
        (some createApi)).err = some "boom" :=
  ⟨by decide,
    (commit_failure ttlConfigured (failingProvider [exampleZone, orgZone, pleZone] 3 "boom")
      [exampleZone, orgZone, pleZone] createApi 1 orgZone "boom" rfl rfl (by decide)
      (by decide)
      (fun i hi zi hzi => by
        have hi0 : i = 0 := by omega
        subst hi0
        have hres : (ApplyChanges ttlConfigured
            (failingProvider [exampleZone, orgZone, pleZone] 3 "boom") (some createApi)).zones[0]?
            = some { exampleZone with Records := [wwwRecord 300, apiRecord 300] } := by decide
        rw [hres] at hzi
        cases hzi
        rfl)
      rfl).1⟩

/-- C12 (listing failure). If the listing call fails with the error `e`, then `Zones`
returns no zones and exactly `e`, `Records` returns no endpoints and exactly `e`, and
`ApplyChanges` on a change set that is not a no-op returns exactly `e`; each of them
issues exactly one listing call and no update call. -/
theorem listing_failure (SupportedRecordType : String → Bool) (IsConfigured : TTL → Bool)
    (p : SakuraCloudProvider) (e : Error) (hfind : p.Client.Find = .error e) :
    Zones p = ([Call.Find], .error e) ∧
    Records SupportedRecordType p = ([Call.Find], .error e) ∧
    ∀ changes : Changes,
      changes.Create.length + changes.Delete.length + changes.UpdateNew.length ≠ 0 →
      ApplyChanges IsConfigured p (some changes)
        = { err := some e, calls := [Call.Find], zones := [] } := by
  have hz := Zones_error p e hfind
  refine ⟨hz, ?_, ?_⟩
  · unfold Records
    rw [hz]
  · intro changes hne
    unfold ApplyChanges
    simp only [if_neg hne, hz]

/-- With a listing that fails with `unavailable`, creating `api.example.com` returns
`unavailable` after the one listing call. -/
theorem listing_failure_witness :
    (unavailableProvider "unavailable").Client.Find = .error "unavailable" ∧
    ApplyChanges ttlConfigured (unavailableProvider "unavailable") (some createApi)
      = { err := some "unavailable", calls := [Call.Find], zones := [] } :=
  ⟨rfl, (listing_failure supportedTypes ttlConfigured (unavailableProvider "unavailable")
    "unavailable" rfl).2.2 createApi (by decide)⟩

/-! ## The read path (C13, C14, C15) -/

theorem getStrippedRecordName_recordEndpoint (z : DNS) (r : DNSRecord) :
    getStrippedRecordName z (recordEndpoint z r) = r.Name := by
  by_cases hn : r.Name = "@"
  · rw [getStrippedRecordName_apex z _ (by simp [recordEndpoint, NewEndpointWithTTL, hn]), hn]
  · exact getStrippedRecordName_append z _ r.Name
      (by simp [recordEndpoint, NewEndpointWithTTL, hn])

theorem endpointToRecord_recordEndpoint (IsConfigured : TTL → Bool) (z : DNS) (r : DNSRecord) :
    endpointToRecord IsConfigured z (recordEndpoint z r)
      = [{ Name := r.Name, Type_ := r.Type_,
           RData := strings.TrimSuffix (strings.TrimPrefix r.RData "\"") "\"",
           TTL := if IsConfigured r.TTL then r.TTL else 300 }] := by
  rw [endpointToRecord_eq_map]
  show [targetRecord IsConfigured z (recordEndpoint z r) r.RData] = _
  simp only [targetRecord, NewDNSRecord, getStrippedRecordName_recordEndpoint]
  rfl

/-- C13 as stated fails. The zone `example.com` holds the TXT record `txt` with the
stored value `"x"` (quotes included); `Records` returns the endpoint with that target,
and `endpointToRecord` translates it back to a record with the value `x`: the value is
not the same. -/
theorem record_round_trip_counterexample :
    (Records supportedTypes (providerOf [txtZone] false)).2 = .ok [txtEndpoint] ∧
    endpointToRecord ttlConfigured txtZone txtEndpoint
      = [{ Name := "txt", Type_ := "TXT", RData := "x", TTL := 300 }] ∧
    txtZone.Records = [{ Name := "txt", Type_ := "TXT", RData := "\"x\"", TTL := 300 }] ∧
    endpointToRecord ttlConfigured txtZone txtEndpoint ≠ txtZone.Records :=
  ⟨by rfl, by decide, by decide, by decide⟩

/-- C13, amended (record round-trip). When the listing succeeds, for every listed zone
`z` and every record `r` of a supported type in `z`, `Records` returns an endpoint for
`r` that `endpointToRecord` translates back, for zone `z`, to exactly one record: it has
the type and name of `r`, the TTL of `r` except that an unconfigured TTL is replaced by
300, and as value the value of `r` with one leading and one trailing double-quote
stripped; so it is `r` itself when the value of `r` neither starts nor ends with a
double-quote and its TTL is configured. -/
theorem record_round_trip (SupportedRecordType : String → Bool) (IsConfigured : TTL → Bool)
    (p : SakuraCloudProvider) (L : List DNS) (hfind : p.Client.Find = .ok L) :
    ∃ eps, (Records SupportedRecordType p).2 = .ok eps ∧
      ∀ z ∈ L, p.domainFilter.Match z.DNSZone = true →
        ∀ r ∈ z.Records, SupportedRecordType r.Type_ = true →
          ∃ ep ∈ eps,
            ep.DNSName = (if r.Name = "@" then z.Name else r.Name ++ "." ++ z.Name) ∧
            ep.RecordType = r.Type_ ∧ ep.Targets = [r.RData] ∧ ep.RecordTTL = r.TTL ∧
            endpointToRecord IsConfigured z ep
              = [{ Name := r.Name, Type_ := r.Type_,
                   RData := strings.TrimSuffix (strings.TrimPrefix r.RData "\"") "\"",
                   TTL := if IsConfigured r.TTL then r.TTL else 300 }] ∧
            (strings.HasPrefix r.RData "\"" = false → strings.HasSuffix r.RData "\"" = false →
              IsConfigured r.TTL = true → endpointToRecord IsConfigured z ep = [r]) := by
  obtain ⟨eps, heps, hmem⟩ := mem_Records_of_mem SupportedRecordType p L hfind
  refine ⟨eps, heps, ?_⟩
  intro z hz hm r hr hs
  refine ⟨recordEndpoint z r, hmem z hz hm r hr hs, rfl, rfl, rfl, rfl,
    endpointToRecord_recordEndpoint IsConfigured z r, ?_⟩
  intro hp hsuf hc
  rw [endpointToRecord_recordEndpoint, trimPrefix_of_not_hasPrefix _ _ hp,
    trimSuffix_of_not_hasSuffix _ _ hsuf, hc]
  rfl

/-- The record `www A 1.1.1.1` with TTL 300 of `example.com` is listed as an endpoint
that is translated back to the same record. -/
theorem record_round_trip_witness :
    (Records supportedTypes (providerOf [exampleZone] false)).2 = .ok [wwwEndpoint 300] ∧
    endpointToRecord ttlConfigured exampleZone (wwwEndpoint 300) = [wwwRecord 300] ∧
    ∃ eps, (Records supportedTypes (providerOf [exampleZone] false)).2 = .ok eps ∧
      ∀ z ∈ [exampleZone], (providerOf [exampleZone] false).domainFilter.Match z.DNSZone = true →
        ∀ r ∈ z.Records, supportedTypes r.Type_ = true →
          ∃ ep ∈ eps,
            ep.DNSName = (if r.Name = "@" then z.Name else r.Name ++ "." ++ z.Name) ∧
            ep.RecordType = r.Type_ ∧ ep.Targets = [r.RData] ∧ ep.RecordTTL = r.TTL ∧
            endpointToRecord ttlConfigured z ep
              = [{ Name := r.Name, Type_ := r.Type_,
                   RData := strings.TrimSuffix (strings.TrimPrefix r.RData "\"") "\"",
                   TTL := if ttlConfigured r.TTL then r.TTL else 300 }] ∧
            (strings.HasPrefix r.RData "\"" = false → strings.HasSuffix r.RData "\"" = false →
              ttlConfigured r.TTL = true → endpointToRecord ttlConfigured z ep = [r]) :=
  ⟨by rfl, by decide,
    record_round_trip supportedTypes ttlConfigured (providerOf [exampleZone] false)
      [exampleZone] rfl⟩

/-- C14 (read path). When the listing succeeds, `Records` issues the listing call and
returns, in zone order and then record order, exactly one endpoint for every record of
a supported type of every zone that passes the filter, and none for the other records;
the endpoint carries the record's type, its TTL unchanged, its value as the single
target, and the name `record name ++ "." ++ zone name`, or the zone name when the
record name is the apex marker. -/
theorem records_read_path (SupportedRecordType : String → Bool) (p : SakuraCloudProvider)
    (L : List DNS) (hfind : p.Client.Find = .ok L) :
    Records SupportedRecordType p
      = ([Call.Find], .ok ((L.filter (fun z => p.domainFilter.Match z.DNSZone)).flatMap
          (fun z => (z.Records.filter (fun r => SupportedRecordType r.Type_)).map
            (fun r =>
              ({ DNSName := if r.Name = "@" then z.Name else r.Name ++ "." ++ z.Name,
                 Targets := [r.RData],
                 RecordType := r.Type_,
                 RecordTTL := r.TTL } : Endpoint))))) := by
  rw [Records_ok SupportedRecordType p L hfind]
  rfl

/-- The zone `example.com` with a `www` record, an `MX` record and an apex record is
read as the two endpoints `www.example.com` and `example.com`; the `MX` record is
skipped and the unconfigured TTL 0 is passed through. -/
theorem records_read_path_witness :
    (providerOf [mixedZone] false).Client.Find = .ok [mixedZone] ∧
    Records supportedTypes (providerOf [mixedZone] false)
      = ([Call.Find], .ok [wwwEndpoint 300,
          { DNSName := "example.com", Targets := ["hello"], RecordType := "TXT",
            RecordTTL := 0 }]) :=
  ⟨rfl, (records_read_path supportedTypes (providerOf [mixedZone] false) [mixedZone] rfl).trans
    (by rfl)⟩

/-- C15 (zone locator). When the listing call succeeds with the zones `L`, `Zones`
issues that one call and returns exactly the zones of `L` whose `DNSZone` name satisfies
`domainFilter.Match`, unchanged and in listing order: a sub-sequence of `L` that holds a
zone if and only if the zone is in `L` and its name satisfies the filter. -/
theorem zones_filter (p : SakuraCloudProvider) (L : List DNS)
    (hfind : p.Client.Find = .ok L) :
    ∃ zones, Zones p = ([Call.Find], .ok zones) ∧
      zones = L.filter (fun z => p.domainFilter.Match z.DNSZone) ∧
      List.Sublist zones L ∧
      ∀ z, z ∈ zones ↔ z ∈ L ∧ p.domainFilter.Match z.DNSZone = true := by
  refine ⟨_, Zones_ok p L hfind, rfl, List.filter_sublist L, fun z => ?_⟩
  exact List.mem_filter

/-- Of the listed zones `example.com`, `example.org` and `ple.com`, a filter that
accepts `example.com` only retains the first. -/
theorem zones_filter_witness :
    (filteredProvider [exampleZone, orgZone, pleZone]).Client.Find
      = .ok [exampleZone, orgZone, pleZone] ∧
    ∃ zones, Zones (filteredProvider [exampleZone, orgZone, pleZone])
        = ([Call.Find], .ok zones) ∧
      zones = [exampleZone] :=
  ⟨rfl, by
    obtain ⟨zones, h1, h2, _⟩ :=
      zones_filter (filteredProvider [exampleZone, orgZone, pleZone])
        [exampleZone, orgZone, pleZone] rfl
    exact ⟨zones, h1, h2.trans (by decide)⟩⟩

/-! ## Zone membership and the commit loop (C16, C18) -/

theorem contains_iff_substring (s substr : String) :
    strings.Contains s substr = true ↔ substr.data <:+: s.data := by
  unfold strings.Contains
  rw [List.any_eq_true, List.infix_iff_prefix_suffix]
  constructor
  · rintro ⟨t, ht, hp⟩
    exact ⟨t, List.isPrefixOf_iff_prefix.mp hp, (List.mem_tails t s.data).mp ht⟩
  · rintro ⟨t, hp, ht⟩
    exact ⟨t, (List.mem_tails t s.data).mpr ht, List.isPrefixOf_iff_prefix.mpr hp⟩

theorem zoneRecords_eq_substring (IsConfigured : TTL → Bool) (z : DNS) (eps : List Endpoint) :
    zoneRecords IsConfigured z eps
      = (eps.filter (fun ep => decide (z.Name.data <:+: ep.DNSName.data))).flatMap
          (endpointToRecord IsConfigured z) := by
  unfold zoneRecords
  congr 1
  apply List.filter_congr
  intro ep _
  by_cases h : z.Name.data <:+: ep.DNSName.data
  · simp [h, (contains_iff_substring ep.DNSName z.Name).mpr h]
  · have hc : strings.Contains ep.DNSName z.Name = false := by
      cases hb : strings.Contains ep.DNSName z.Name with
      | false => rfl
      | true => exact absurd ((contains_iff_substring ep.DNSName z.Name).mp hb) h
    simp [h, hc]

theorem zoneRecords_eq_nil (IsConfigured : TTL → Bool) (z : DNS) (eps : List Endpoint)
    (h : ∀ ep ∈ eps, strings.Contains ep.DNSName z.Name = false) :
    zoneRecords IsConfigured z eps = [] := by
  unfold zoneRecords
  have hf : eps.filter (fun ep => strings.Contains ep.DNSName z.Name) = [] := by
    rw [List.filter_eq_nil_iff]
    intro ep hep
    simp [h ep hep]
  rw [hf]
  rfl

/-- C16 (zone membership is substring containment). `strings.Contains s substr` holds
exactly when `substr` is a contiguous part of `s`. When the listing succeeds and the
change set is not a no-op, the zones `ApplyChanges` works on are the listed zones that
pass the filter, and the collection of each zone `z` is its own collection after
`Add` of the records of the `Create` endpoints, `Add` of those of the `UpdateNew`
endpoints, `Delete` of those of the `Delete` endpoints and `Delete` of those of the
`UpdateOld` endpoints, where in each list exactly the endpoints whose DNS name has the
name of `z` as a substring are translated (for zone `z`); this holds for every zone
separately, so an endpoint goes to every zone whose name its DNS name contains. -/
theorem zone_membership_substring (IsConfigured : TTL → Bool) (p : SakuraCloudProvider)
    (L : List DNS) (changes : Changes) (hfind : p.Client.Find = .ok L)
    (hne : changes.Create.length + changes.Delete.length + changes.UpdateNew.length ≠ 0) :
    (∀ s substr : String, strings.Contains s substr = true ↔ substr.data <:+: s.data) ∧
    (ApplyChanges IsConfigured p (some changes)).zones
      = (L.filter (fun z => p.domainFilter.Match z.DNSZone)).map (fun z =>
          { z with Records := (
              ((changes.UpdateOld.filter
                  (fun ep => decide (z.Name.data <:+: ep.DNSName.data))).flatMap
                (endpointToRecord IsConfigured z)).foldl DNSRecords.Delete
              (((changes.Delete.filter
                  (fun ep => decide (z.Name.data <:+: ep.DNSName.data))).flatMap
                (endpointToRecord IsConfigured z)).foldl DNSRecords.Delete
              (((changes.UpdateNew.filter
                  (fun ep => decide (z.Name.data <:+: ep.DNSName.data))).flatMap
                (endpointToRecord IsConfigured z)).foldl DNSRecords.Add
              (((changes.Create.filter
                  (fun ep => decide (z.Name.data <:+: ep.DNSName.data))).flatMap
                (endpointToRecord IsConfigured z)).foldl DNSRecords.Add z.Records)))) }) := by
  refine ⟨contains_iff_substring, ?_⟩
  rw [ApplyChanges_zones IsConfigured p L changes hfind hne]
  apply List.map_congr_left
  intro z _
  simp only [reconciledZone, reconciledRecords, zoneRecords_eq_substring]

/-- The zones `example.com` and `ple.com` are listed and `example.com A 1.2.3.4` is
created: `ple.com` is a substring of `example.com`, so the endpoint is translated for
both zones, as the apex record of `example.com` and as a record named `example.com` of
`ple.com`. -/
theorem zone_membership_substring_witness :
    ApplyChanges ttlConfigured (providerOf [exampleZone, pleZone] false) (some createApex)
      = { err := none,
          calls := [Call.Find,
            Call.Update 1 [wwwRecord 300,
              { Name := "@", Type_ := "A", RData := "1.2.3.4", TTL := 300 }],
            Call.Update 2 [{ Name := "example.com", Type_ := "A", RData := "1.2.3.4", TTL := 300 }]],
          zones := [
            { exampleZone with Records := [wwwRecord 300,
                { Name := "@", Type_ := "A", RData := "1.2.3.4", TTL := 300 }] },
            { pleZone with Records :=
                [{ Name := "example.com", Type_ := "A", RData := "1.2.3.4", TTL := 300 }] }] } ∧
    ("ple.com").data <:+: ("example.com").data :=
  ⟨by decide,
    ((zone_membership_substring ttlConfigured (providerOf [exampleZone, pleZone] false)
      [exampleZone, pleZone] createApex rfl (by decide)).1 "example.com" "ple.com").mp
      (by decide)⟩

/-- C18 (commit covers every listed zone). With `DryRun` unset, the listing succeeding,
a change set that is not a no-op and no error returned, `ApplyChanges` issues the
listing call and then exactly one update call per zone returned by `Zones`, in listing
order, with the zone's ID and collection; a zone whose name is contained in the DNS name
of no endpoint of the change set is among them and is sent unchanged. -/
theorem commit_covers_every_zone (IsConfigured : TTL → Bool) (p : SakuraCloudProvider)
    (L : List DNS) (changes : Changes) (hdry : p.DryRun = false)
    (hfind : p.Client.Find = .ok L)
    (hne : changes.Create.length + changes.Delete.length + changes.UpdateNew.length ≠ 0)
    (hok : (ApplyChanges IsConfigured p (some changes)).err = none) :
    (ApplyChanges IsConfigured p (some changes)).calls
      = Call.Find :: (ApplyChanges IsConfigured p (some changes)).zones.map
          (fun z' => Call.Update z'.ID z'.Records) ∧
    List.Forall₂
      (fun z z' => z'.ID = z.ID ∧ z'.Name = z.Name ∧
        ((∀ ep ∈ changes.Create ++ changes.UpdateNew ++ changes.Delete ++ changes.UpdateOld,
            strings.Contains ep.DNSName z.Name = false) → z' = z))
      (L.filter (fun z => p.domainFilter.Match z.DNSZone))
      (ApplyChanges IsConfigured p (some changes)).zones := by
  constructor
  · obtain ⟨k, hk, hall⟩ := ApplyChanges_calls IsConfigured p L changes hfind hne
    rw [hk, hall hdry hok, List.take_length]
  · rw [ApplyChanges_zones IsConfigured p L changes hfind hne, List.forall₂_map_right_iff,
      List.forall₂_same]
    intro z _
    refine ⟨rfl, rfl, fun h => ?_⟩
    have h1 := zoneRecords_eq_nil IsConfigured z changes.Create
      (fun ep hep => h ep (by simp [hep]))
    have h2 := zoneRecords_eq_nil IsConfigured z changes.UpdateNew
      (fun ep hep => h ep (by simp [hep]))
    have h3 := zoneRecords_eq_nil IsConfigured z changes.Delete
      (fun ep hep => h ep (by simp [hep]))
    have h4 := zoneRecords_eq_nil IsConfigured z changes.UpdateOld
      (fun ep hep => h ep (by simp [hep]))
    simp [reconciledZone, reconciledRecords, h1, h2, h3, h4]

/-- The zones `example.com` (ID 1) and `example.org` (ID 3) are listed and
`api.example.com` is created: an update call is issued for each, and the one for
`example.org`, which no endpoint matches, carries its empty collection unchanged. -/
theorem commit_covers_every_zone_witness :
    ApplyChanges ttlConfigured (providerOf [exampleZone, orgZone] false) (some createApi)
      = { err := none,
          calls := [Call.Find, Call.Update 1 [wwwRecord 300, apiRecord 300], Call.Update 3 []],
          zones := [{ exampleZone with Records := [wwwRecord 300, apiRecord 300] }, orgZone] } ∧
    (ApplyChanges ttlConfigured (providerOf [exampleZone, orgZone] false) (some createApi)).calls
      = Call.Find :: (ApplyChanges ttlConfigured (providerOf [exampleZone, orgZone] false)
          (some createApi)).zones.map (fun z' => Call.Update z'.ID z'.Records) :=
  ⟨by decide,
    (commit_covers_every_zone ttlConfigured (providerOf [exampleZone, orgZone] false)
      [exampleZone, orgZone] createApi rfl rfl (by decide) (by decide)).1⟩

/-! ## Construction (C17) -/

/-- C17 (construction). `NewSakuraCloudProvider` fails if and only if
`SAKURACLOUD_ACCESS_TOKEN` or `SAKURACLOUD_ACCESS_TOKEN_SECRET` is absent from the
environment; when both are present, with whatever values, it returns the provider that
holds the client made from them and the given domain filter and dry-run flag. -/
theorem newSakuraCloudProvider_spec (LookupEnv : String → Option String)
    (NewClient : String → String → Client) (domainFilter : DomainFilter) (dryRun : Bool) :
    ((∃ e, NewSakuraCloudProvider LookupEnv NewClient domainFilter dryRun = .error e) ↔
      (LookupEnv "SAKURACLOUD_ACCESS_TOKEN" = none ∨
        LookupEnv "SAKURACLOUD_ACCESS_TOKEN_SECRET" = none)) ∧
    (∀ token secret : String,
      LookupEnv "SAKURACLOUD_ACCESS_TOKEN" = some token →
      LookupEnv "SAKURACLOUD_ACCESS_TOKEN_SECRET" = some secret →
      NewSakuraCloudProvider LookupEnv NewClient domainFilter dryRun
        = .ok { Client := NewClient token secret, domainFilter := domainFilter,
                DryRun := dryRun }) := by
  unfold NewSakuraCloudProvider
  cases ht : LookupEnv "SAKURACLOUD_ACCESS_TOKEN" with
  | none => simp
  | some token =>
    cases hs : LookupEnv "SAKURACLOUD_ACCESS_TOKEN_SECRET" with
    | none => simp
    | some secret => simp

/-- With both variables set to the empty string the construction succeeds and keeps the
dry-run flag; with the secret missing it fails. -/
theorem newSakuraCloudProvider_spec_witness :
    (∃ p, NewSakuraCloudProvider (envOf (some "") (some "")) clientOf
        { Match := fun _ => true } true = .ok p ∧ p.DryRun = true) ∧
    (∃ e, NewSakuraCloudProvider (envOf (some "token") none) clientOf
        { Match := fun _ => true } true = .error e) :=
  ⟨⟨_, (newSakuraCloudProvider_spec (envOf (some "") (some "")) clientOf
      { Match := fun _ => true } true).2 "" "" (by decide) (by decide), rfl⟩,
    (newSakuraCloudProvider_spec (envOf (some "token") none) clientOf
      { Match := fun _ => true } true).1.mpr (Or.inr (by decide))⟩

/-! ## Relative names that are not produced by the read path (C19, C20) -/

theorem hasSuffix_iff_suffix (s suffix : String) :
    strings.HasSuffix s suffix = true ↔ suffix.data <:+ s.data := by
  unfold strings.HasSuffix
  exact List.isSuffixOf_iff_suffix

theorem dot_append_ne_self (z : String) : z ≠ "." ++ z := by
  intro h
  have hl := congrArg String.length h
  have hd : (".").length = 1 := by decide
  simp only [String.length_append, hd] at hl
  omega

/-- C19 (non-suffix names are left whole). If the DNS name of an endpoint differs from
the zone name and does not end in `"." ++ zone name`, `getStrippedRecordName` returns
the DNS name unchanged, and every record `endpointToRecord` produces for the endpoint
and the zone is named by the full DNS name. -/
theorem getStrippedRecordName_non_suffix (IsConfigured : TTL → Bool) (zone : DNS)
    (ep : Endpoint) (hne : ep.DNSName ≠ zone.Name)
    (hns : ¬ ("." ++ zone.Name).data <:+ ep.DNSName.data) :
    getStrippedRecordName zone ep = ep.DNSName ∧
    ∀ r ∈ endpointToRecord IsConfigured zone ep, r.Name = ep.DNSName := by
  have hname : getStrippedRecordName zone ep = ep.DNSName := by
    unfold getStrippedRecordName
    rw [if_neg hne]
    apply trimSuffix_of_not_hasSuffix
    cases hb : strings.HasSuffix ep.DNSName ("." ++ zone.Name) with
    | false => rfl
    | true => exact absurd ((hasSuffix_iff_suffix _ _).mp hb) hns
  refine ⟨hname, fun r hr => ?_⟩
  rw [endpointToRecord_eq_map] at hr
  obtain ⟨target, _, rfl⟩ := List.mem_map.mp hr
  exact hname

/-- The endpoint `example.com` is named `example.com` in the zone `ple.com`, and an
endpoint `example.com.internal` is named `example.com.internal` in the zone
`example.com`. -/
theorem getStrippedRecordName_non_suffix_witness :
    getStrippedRecordName pleZone apexEndpoint = "example.com" ∧
    endpointToRecord ttlConfigured pleZone apexEndpoint
      = [{ Name := "example.com", Type_ := "A", RData := "1.2.3.4", TTL := 300 }] ∧
    getStrippedRecordName exampleZone
      { DNSName := "example.com.internal", Targets := ["1.2.3.4"], RecordType := "A",
        RecordTTL := 0 } = "example.com.internal" :=
  ⟨(getStrippedRecordName_non_suffix ttlConfigured pleZone apexEndpoint (by decide)
      (by decide)).1,
    by decide,
    (getStrippedRecordName_non_suffix ttlConfigured exampleZone
      { DNSName := "example.com.internal", Targets := ["1.2.3.4"], RecordType := "A",
        RecordTTL := 0 } (by decide) (by decide)).1⟩

/-- C20 (empty relative name). `getStrippedRecordName` returns the empty string if and
only if the DNS name is `"." ++ zone name`, or the DNS name is empty and the zone name
is not; in every other case the result is non-empty, and it is `"@"` when the DNS name
equals the zone name. -/
theorem getStrippedRecordName_eq_empty_iff (zone : DNS) (ep : Endpoint) :
    (getStrippedRecordName zone ep = "" ↔
      (ep.DNSName = "." ++ zone.Name ∨ (ep.DNSName = "" ∧ zone.Name ≠ ""))) ∧
    (ep.DNSName = zone.Name → getStrippedRecordName zone ep = "@") := by
  refine ⟨?_, getStrippedRecordName_apex zone ep⟩
  unfold getStrippedRecordName
  by_cases h : ep.DNSName = zone.Name
  · rw [if_pos h]
    constructor
    · intro h0
      exact absurd h0 (by decide)
    · rintro (h1 | ⟨h1, h2⟩)
      · exact absurd (h.symm.trans h1) (dot_append_ne_self zone.Name)
      · exact absurd (h.symm.trans h1) h2
  · rw [if_neg h]
    cases hb : strings.HasSuffix ep.DNSName ("." ++ zone.Name) with
    | true =>
      obtain ⟨t, ht⟩ := (hasSuffix_iff_suffix _ _).mp hb
      have hd : ep.DNSName = (⟨t⟩ : String) ++ ("." ++ zone.Name) := by
        apply String.ext
        rw [String.data_append, ← ht]
      rw [hd, trimSuffix_append]
      constructor
      · intro h0
        left
        rw [h0]
        apply String.ext
        simp [String.data_append]
      · rintro (h1 | ⟨h1, _⟩)
        · have hl := congrArg String.length h1
          simp only [String.length_append] at hl
          have ht0 : t.length = 0 := by
            have : (⟨t⟩ : String).length = t.length := rfl
            omega
          apply String.ext
          exact List.length_eq_zero.mp ht0
        · have hl := congrArg String.length h1
          have hdot : (".").length = 1 := by decide
          have he : ("").length = 0 := by decide
          simp only [String.length_append, hdot, he] at hl
          omega
    | false =>
      rw [trimSuffix_of_not_hasSuffix _ _ hb]
      constructor
      · intro h0
        right
        refine ⟨h0, fun hz => h (h0.trans hz.symm)⟩
      · rintro (h1 | ⟨h1, _⟩)
        · exfalso
          have : strings.HasSuffix ep.DNSName ("." ++ zone.Name) = true := by
            rw [hasSuffix_iff_suffix, h1]
          rw [hb] at this
          cases this
        · exact h1

end sakuracloud
